import Mathlib

/-!
# Verification of the necker transaction engine

Shallow embedding of the transaction normalization, identity/dedup and
accrual-accounting core of the `necker` repository, together with proofs
of the frozen behavioural claims.

Source files embedded:
* `src/models/transaction.py` (the canonical record and checksum id),
* `src/ingestion/chase.py` and `src/ingestion/amex.py` (format adapters),
* `src/services/transactions.py` (bulk insert, batch update, month queries,
  accrual query engine), with the SQLite table modelled as a `List Transaction`
  and a `SELECT ... WHERE` modelled as `List.filter`,
* `src/cli/transactions.py` (`cmd_set_amortization`, `cmd_update_from_csv`),
* `src/tools/transactions.py` (`get_period_transactions`, `get_period_summary`).

Modelling conventions: Python `Decimal` amounts become `ℚ`; `datetime.date`
becomes a `year/month/day` record compared by its numeric ISO key (equivalent
to the ISO-string comparison SQLite performs for in-range dates); Python
exceptions become `Except`/`Option`; the `hashlib.sha256(...).hexdigest()`
call is embedded as a full SHA-256 implementation over `Nat`.
-/

namespace Necker

/-! ## Python string helpers (`str.strip`, `str.strip('"')`, `str.upper`, ...) -/

/-- The whitespace characters removed by Python `str.strip()` (ASCII subset). -/
def isPySpace (c : Char) : Bool :=
  c = ' ' || c = '\t' || c = '\n' || c = '\r' || c = '\x0b' || c = '\x0c'

/-- Drop matching characters from both ends of a character list. -/
def stripWhile (p : Char → Bool) (l : List Char) : List Char :=
  ((l.dropWhile p).reverse.dropWhile p).reverse

/-- Python `s.strip()`. -/
def pyStrip (s : String) : String :=
  String.mk (stripWhile isPySpace s.toList)

/-- Python `s.strip('"')`: removes all leading and trailing double quotes. -/
def stripQuotes (s : String) : String :=
  String.mk (stripWhile (fun c => c = '"') s.toList)

/-- Python `s.strip("'")`. -/
def stripTicks (s : String) : String :=
  String.mk (stripWhile (fun c => c = '\'') s.toList)

/-- Python `s.upper()` (ASCII model, sufficient for the adapter keywords). -/
def pyUpper (s : String) : String := String.mk (s.toList.map Char.toUpper)

/-- Whether `pat` occurs as a contiguous run inside `l` (Python `in` on str). -/
def containsSeq (pat : List Char) : List Char → Bool
  | [] => pat.isEmpty
  | c :: rest => pat.isPrefixOf (c :: rest) || containsSeq pat rest

/-- Python `pat in s` for strings. -/
def pyContains (s pat : String) : Bool :=
  pat.isEmpty || containsSeq pat.toList s.toList

/-! ## Numeric literal parsing (`int(...)`, `decimal.Decimal(...)`) -/

/-- Parse a nonempty all-digit string. -/
def parseDigits (l : List Char) : Option Nat :=
  if l.isEmpty || !(l.all Char.isDigit) then none
  else some (l.foldl (fun n c => n * 10 + (c.toNat - '0'.toNat)) 0)

/-- Python `int(s)` on an already-stripped string: optional sign, digits. -/
def parsePyInt (s : String) : Option Int :=
  match s.toList with
  | '-' :: rest => (parseDigits rest).map (fun n => -(n : Int))
  | '+' :: rest => (parseDigits rest).map (fun n => (n : Int))
  | l => (parseDigits l).map (fun n => (n : Int))

/-- Value of an integer-part/fraction-part digit pair as a rational. -/
def decimalValue (ip fp : List Char) : ℚ :=
  let ipn : Nat := ip.foldl (fun n c => n * 10 + (c.toNat - '0'.toNat)) 0
  let fpn : Nat := fp.foldl (fun n c => n * 10 + (c.toNat - '0'.toNat)) 0
  (ipn : ℚ) + (fpn : ℚ) / ((10 : ℚ) ^ fp.length)

/-- Python `decimal.Decimal(s)` on plain (non-scientific) decimal literals:
optional sign, digits, optional fraction, at least one digit in total.
Exotic `Decimal` inputs (exponents, `NaN`, `Infinity`) are outside the model;
every amount the adapters and tests feed in is a plain literal. -/
def parsePyDecimal (s : String) : Option ℚ :=
  let core : List Char → Option ℚ := fun l =>
    match l.splitOn '.' with
    | [ip] =>
        if ip.isEmpty || !(ip.all Char.isDigit) then none else some (decimalValue ip [])
    | [ip, fp] =>
        if (ip.isEmpty && fp.isEmpty) || !(ip.all Char.isDigit) || !(fp.all Char.isDigit)
        then none else some (decimalValue ip fp)
    | _ => none
  match s.toList with
  | '-' :: rest => (core rest).map (fun q => -q)
  | '+' :: rest => core rest
  | l => core l

/-- Python `s.replace(",", "")`: drop every comma. -/
def stripCommas (s : String) : String :=
  String.mk (s.toList.filter (fun c => c ≠ ','))

/-! ## Calendar dates (`datetime.date`, `calendar.monthrange`) -/

/-- A calendar date. -/
structure Date where
  year : Nat
  month : Nat
  day : Nat
deriving DecidableEq

/-- Gregorian leap year test. -/
def isLeapYear (y : Nat) : Bool :=
  y % 4 = 0 && (y % 100 ≠ 0 || y % 400 = 0)

/-- Python `calendar.monthrange(y, m)[1]`: number of days in a month. -/
def daysInMonth (y m : Nat) : Nat :=
  if m = 2 then (if isLeapYear y then 29 else 28)
  else if m = 4 || m = 6 || m = 9 || m = 11 then 30
  else 31

/-- Numeric key realizing the ISO `YYYY-MM-DD` string order used by the
SQL date comparisons (for in-range month/day components). -/
def Date.key (d : Date) : Nat := (d.year * 100 + d.month) * 100 + d.day

/-- Date comparison, as performed on ISO strings by SQLite. -/
def dateLe (a b : Date) : Bool := a.key ≤ b.key

/-- Zero-based linear month index `year * 12 + (month - 1)`. -/
def monthIdx (y m : Nat) : Nat := y * 12 + (m - 1)

/-- Python `datetime.strptime(s, "%m/%d/%Y").date()`: one-or-two digit month and
day, four digit year, and the resulting date must be a valid calendar date. -/
def parseDateMDY (s : String) : Option Date :=
  match s.toList.splitOn '/' with
  | [ms, ds, ys] =>
      match parseDigits ms, parseDigits ds, parseDigits ys with
      | some m, some d, some y =>
          if ms.length ≤ 2 && ds.length ≤ 2 && ys.length = 4
              && 1 ≤ y && 1 ≤ m && m ≤ 12 && 1 ≤ d && d ≤ daysInMonth y m
          then some ⟨y, m, d⟩ else none
      | _, _, _ => none
  | _ => none

/-! ## Rounding (`round(Decimal, 2)`, i.e. `ROUND_HALF_EVEN` to 2 places) -/

/-- Round a rational to the nearest integer, ties to even
(the rounding Python `round` applies to `Decimal` values). -/
def roundHalfEven (q : ℚ) : ℤ :=
  let n := ⌊q⌋
  let r := q - (n : ℚ)
  if r < 1/2 then n
  else if 1/2 < r then n + 1
  else if n % 2 = 0 then n else n + 1

/-- Python `round(q, 2)` on exact decimal values. -/
def round2 (q : ℚ) : ℚ := ((roundHalfEven (q * 100) : ℚ)) / 100

/-! ## SHA-256 (`hashlib.sha256(raw.encode("utf-8")).hexdigest()`)

32-bit words are `Nat`s kept below `2^32` by explicit truncation. -/

/-- Truncate to 32 bits. -/
def w32 (n : Nat) : Nat := n % 4294967296

/-- Right rotation of a 32-bit word. -/
def rotr (x n : Nat) : Nat := w32 ((x >>> n) ||| (x <<< (32 - n)))

/-- SHA-256 round constants. -/
def sha256K : List Nat :=
  [1116352408, 1899447441, 3049323471, 3921009573, 961987163, 1508970993,
   2453635748, 2870763221, 3624381080, 310598401, 607225278, 1426881987,
   1925078388, 2162078206, 2614888103, 3248222580, 3835390401, 4022224774,
   264347078, 604807628, 770255983, 1249150122, 1555081692, 1996064986,
   2554220882, 2821834349, 2952996808, 3210313671, 3336571891, 3584528711,
   113926993, 338241895, 666307205, 773529912, 1294757372, 1396182291,
   1695183700, 1986661051, 2177026350, 2456956037, 2730485921, 2820302411,
   3259730800, 3345764771, 3516065817, 3600352804, 4094571909, 275423344,
   430227734, 506948616, 659060556, 883997877, 958139571, 1322822218,
   1537002063, 1747873779, 1955562222, 2024104815, 2227730452, 2361852424,
   2428436474, 2756734187, 3204031479, 3329325298]

/-- SHA-256 working state. -/
structure Sha256State where
  a : Nat
  b : Nat
  c : Nat
  d : Nat
  e : Nat
  f : Nat
  g : Nat
  h : Nat

/-- SHA-256 initial hash value. -/
def sha256Init : Sha256State :=
  ⟨1779033703, 3144134277, 1013904242, 2773480762,
   1359893119, 2600822924, 528734635, 1541459225⟩

/-- UTF-8 encoding of one character, as a list of bytes. -/
def utf8Bytes (c : Char) : List Nat :=
  let n := c.toNat
  if n < 0x80 then [n]
  else if n < 0x800 then
    [0xC0 ||| (n >>> 6), 0x80 ||| (n &&& 0x3F)]
  else if n < 0x10000 then
    [0xE0 ||| (n >>> 12), 0x80 ||| ((n >>> 6) &&& 0x3F), 0x80 ||| (n &&& 0x3F)]
  else
    [0xF0 ||| (n >>> 18), 0x80 ||| ((n >>> 12) &&& 0x3F),
     0x80 ||| ((n >>> 6) &&& 0x3F), 0x80 ||| (n &&& 0x3F)]

/-- Python `s.encode("utf-8")` as a list of bytes. -/
def utf8Encode (s : String) : List Nat := s.toList.flatMap utf8Bytes

/-- Big-endian bytes of `n`, `k` bytes wide. -/
def beBytes (k n : Nat) : List Nat :=
  match k with
  | 0 => []
  | k + 1 => beBytes k (n / 256) ++ [n % 256]

/-- SHA-256 message padding: `0x80`, zeros, 64-bit big-endian bit length. -/
def sha256Pad (msg : List Nat) : List Nat :=
  let padLen := (55 + 64 - msg.length % 64) % 64
  msg ++ [0x80] ++ List.replicate padLen 0 ++ beBytes 8 (msg.length * 8)

/-- Split a byte list into 64-byte blocks. -/
def blocks64 : List Nat → List (List Nat)
  | [] => []
  | x :: xs => ((x :: xs).take 64) :: blocks64 ((x :: xs).drop 64)
termination_by l => l.length
decreasing_by simp; omega

/-- Big-endian 32-bit words of a byte block. -/
def toWords : List Nat → List Nat
  | b0 :: b1 :: b2 :: b3 :: rest =>
      (((b0 * 256 + b1) * 256 + b2) * 256 + b3) :: toWords rest
  | _ => []

/-- Extend 16 message words to the 64-entry message schedule. -/
def sha256Schedule (ws : List Nat) : List Nat :=
  (List.range 48).foldl
    (fun acc _ =>
      let t := acc.length
      let w15 := acc.getD (t - 15) 0
      let w2 := acc.getD (t - 2) 0
      let s0 := (rotr w15 7) ^^^ (rotr w15 18) ^^^ (w15 >>> 3)
      let s1 := (rotr w2 17) ^^^ (rotr w2 19) ^^^ (w2 >>> 10)
      acc ++ [w32 (acc.getD (t - 16) 0 + s0 + acc.getD (t - 7) 0 + s1)])
    ws

/-- One SHA-256 compression round. -/
def sha256Round (st : Sha256State) (kw : Nat × Nat) : Sha256State :=
  let S1 := (rotr st.e 6) ^^^ (rotr st.e 11) ^^^ (rotr st.e 25)
  let ch := (st.e &&& st.f) ^^^ ((st.e ^^^ 0xffffffff) &&& st.g)
  let temp1 := w32 (st.h + S1 + ch + kw.1 + kw.2)
  let S0 := (rotr st.a 2) ^^^ (rotr st.a 13) ^^^ (rotr st.a 22)
  let maj := (st.a &&& st.b) ^^^ (st.a &&& st.c) ^^^ (st.b &&& st.c)
  let temp2 := w32 (S0 + maj)
  ⟨w32 (temp1 + temp2), st.a, st.b, st.c, w32 (st.d + temp1), st.e, st.f, st.g⟩

/-- Process one 64-byte block. -/
def sha256Block (st : Sha256State) (block : List Nat) : Sha256State :=
  let ws := sha256Schedule (toWords block)
  let r := (sha256K.zip ws).foldl sha256Round st
  ⟨w32 (st.a + r.a), w32 (st.b + r.b), w32 (st.c + r.c), w32 (st.d + r.d),
   w32 (st.e + r.e), w32 (st.f + r.f), w32 (st.g + r.g), w32 (st.h + r.h)⟩

/-- Lowercase hex digit. -/
def hexDigit (n : Nat) : Char :=
  if n < 10 then Char.ofNat ('0'.toNat + n) else Char.ofNat ('a'.toNat + n - 10)

/-- Two-digit lowercase hex of a byte. -/
def hexByte (n : Nat) : List Char := [hexDigit (n / 16), hexDigit (n % 16)]

/-- Python `hashlib.sha256(s.encode("utf-8")).hexdigest()`. -/
def sha256Hex (s : String) : String :=
  let final := (blocks64 (sha256Pad (utf8Encode s))).foldl sha256Block sha256Init
  let ds := [final.a, final.b, final.c, final.d, final.e, final.f, final.g, final.h]
  String.mk ((ds.flatMap (beBytes 4)).flatMap hexByte)

/-! ## CSV line splitting (`csv.reader`, default dialect)

Model of how Python's `csv.reader` splits one physical line into fields:
comma-separated, a `"` at field start opens a quoted section, `""` inside a
quoted section is a literal quote. Multi-line quoted records are outside the
model; the adapters' ingest functions below take already-split rows. -/

/-- Field-splitting state machine over the characters of a line. -/
def csvRun : List Char → Bool → List Char → List String
  | [], _, cur => [String.mk cur.reverse]
  | '"' :: '"' :: rest, true, cur => csvRun rest true ('"' :: cur)
  | '"' :: rest, true, cur => csvRun rest false cur
  | c :: rest, true, cur => csvRun rest true (c :: cur)
  | c :: rest, false, cur =>
      if c = ',' then String.mk cur.reverse :: csvRun rest false []
      else if c = '"' && cur.isEmpty then csvRun rest true cur
      else csvRun rest false (c :: cur)

/-- Split one CSV line into fields (an empty line yields an empty row,
as `csv.reader` does). -/
def csvParseLine (s : String) : List String :=
  if s.isEmpty then [] else csvRun s.toList false []

/-! ## The canonical Transaction record

Field set of the `transactions` table as read and written by
`services/transactions.py` (`_TRANSACTION_SELECT_FIELDS` plus the
`merchant_name` / `auto_merchant_name` / `accrued` attributes used by the
CLI and the accrual query engine).  The `category=` keyword of the older
dataclass in `models/transaction.py` corresponds to `bank_category` here,
as in the other adapters. -/

structure Transaction where
  id : String
  account_id : Nat
  transaction_date : Date
  post_date : Option Date := none
  description : String := ""
  bank_category : Option String := none
  amount : ℚ := 0
  type : String := "expense"
  additional_metadata : Option (List (String × String)) := none
  data_import_id : Option Nat := none
  category_id : Option Nat := none
  auto_category_id : Option Nat := none
  amortize_months : Option Nat := none
  amortize_end_date : Option Date := none
  merchant_name : Option String := none
  auto_merchant_name : Option String := none
  accrued : Bool := false
deriving DecidableEq

/-- Embeds `Transaction.create_with_checksum` (`models/transaction.py`): the id is
the SHA-256 hex digest of `raw_data`; suggestion/amortization fields start
unset. -/
def Transaction.createWithChecksum (raw_data : String) (account_id : Nat)
    (transaction_date : Date) (post_date : Option Date) (description : String)
    (bank_category : Option String) (amount : ℚ) (type : String)
    (additional_metadata : Option (List (String × String))) : Transaction :=
  { id := sha256Hex raw_data
    account_id := account_id
    transaction_date := transaction_date
    post_date := post_date
    description := description
    bank_category := bank_category
    amount := amount
    type := type
    additional_metadata := additional_metadata }

/-! ## Chase adapter (`src/ingestion/chase.py`) -/

namespace Chase

/-- The `_CSV_HEADERS` list of the Chase adapter. -/
def csvHeaders : List String :=
  ["Transaction Date", "Post Date", "Description", "Category", "Type",
   "Amount", "Memo"]

/-- Embeds `row_to_transaction`: `none` models the `ValueError`/parse exceptions the
ingest loop catches per row. -/
def rowToTransaction (row : List String) (account_id : Nat) : Option Transaction :=
  if row.length < 6 then none
  else
    let raw_line := String.intercalate "," row
    let trans_date_str := pyStrip (row.getD 0 "")
    let post_date_str := pyStrip (row.getD 1 "")
    let description := stripQuotes (pyStrip (row.getD 2 ""))
    let category := stripQuotes (pyStrip (row.getD 3 ""))
    let type_field := pyStrip (row.getD 4 "")
    let amount_str := pyStrip (row.getD 5 "")
    let memo := if row.length > 6 then stripQuotes (pyStrip (row.getD 6 "")) else ""
    if trans_date_str.isEmpty || amount_str.isEmpty then none
    else
      match parseDateMDY trans_date_str, parseDateMDY post_date_str,
            parsePyDecimal (stripCommas amount_str) with
      | some transaction_date, some post_date, some amount_value =>
          let additional_metadata :=
            if memo.isEmpty then none else some [("memo", memo)]
          let transaction_type :=
            if type_field = "Payment" || pyContains (pyUpper description) "AUTOMATIC PAYMENT"
            then "transfer"
            else if amount_value < 0 then "expense" else "income"
          some (Transaction.createWithChecksum raw_line account_id transaction_date
            (some post_date) description (if category.isEmpty then none else some category)
            |amount_value| transaction_type additional_metadata)
      | _, _, _ => none

/-- The ingest loop body over the data rows: short or failing rows are
logged and skipped. -/
def processRows (account_id : Nat) : List (List String) → List Transaction
  | [] => []
  | row :: rest =>
      if row.isEmpty || row.length < 6 then processRows account_id rest
      else
        match rowToTransaction row account_id with
        | some t => t :: processRows account_id rest
        | none => processRows account_id rest

/-- Embeds `ingest`: header validation then the row loop; `Except.error` models the
raised `ValueError` that aborts the whole ingestion. -/
def ingest (rows : List (List String)) (account_id : Nat) :
    Except String (List Transaction) :=
  match rows with
  | [] => .error "Empty CSV file"
  | header :: dataRows =>
      if header ≠ csvHeaders then .error "CSV headers do not match expected format"
      else .ok (processRows account_id dataRows)

end Chase

/-! ## AMEX adapter (`src/ingestion/amex.py`) -/

namespace Amex

/-- The `_CSV_HEADERS` list of the AMEX adapter. -/
def csvHeaders : List String :=
  ["Date", "Description", "Amount", "Extended Details",
   "Appears On Your Statement As", "Address", "City/State", "Zip Code",
   "Country", "Reference", "Category"]

/-- Embeds `row_to_transaction` for AMEX rows. -/
def rowToTransaction (row : List String) (account_id : Nat) : Option Transaction :=
  if row.length < 3 then none
  else
    let raw_line := String.intercalate "," row
    let date_str := pyStrip (row.getD 0 "")
    let description := stripQuotes (pyStrip (row.getD 1 ""))
    let amount_str := pyStrip (row.getD 2 "")
    let extended_details := if row.length > 3 then stripQuotes (pyStrip (row.getD 3 "")) else ""
    let appears_as := if row.length > 4 then stripQuotes (pyStrip (row.getD 4 "")) else ""
    let address := if row.length > 5 then stripQuotes (pyStrip (row.getD 5 "")) else ""
    let city_state := if row.length > 6 then stripQuotes (pyStrip (row.getD 6 "")) else ""
    let zip_code := if row.length > 7 then stripQuotes (pyStrip (row.getD 7 "")) else ""
    let country := if row.length > 8 then stripQuotes (pyStrip (row.getD 8 "")) else ""
    let reference := if row.length > 9 then stripTicks (stripQuotes (pyStrip (row.getD 9 ""))) else ""
    let category := if row.length > 10 then stripQuotes (pyStrip (row.getD 10 "")) else ""
    if date_str.isEmpty || amount_str.isEmpty then none
    else
      match parseDateMDY date_str, parsePyDecimal (stripCommas amount_str) with
      | some transaction_date, some amount_value =>
          let meta :=
            (if extended_details.isEmpty then [] else [("extended_details", extended_details)])
            ++ (if !appears_as.isEmpty && appears_as ≠ description then [("appears_as", appears_as)] else [])
            ++ (if address.isEmpty then [] else [("address", address)])
            ++ (if city_state.isEmpty then [] else [("city_state", city_state)])
            ++ (if zip_code.isEmpty then [] else [("zip_code", zip_code)])
            ++ (if country.isEmpty then [] else [("country", country)])
            ++ (if reference.isEmpty then [] else [("reference", reference)])
          let transaction_type :=
            if amount_value < 0 && pyContains (pyUpper description) "AUTOPAY PAYMENT"
            then "transfer"
            else if amount_value < 0 then "income" else "expense"
          some (Transaction.createWithChecksum raw_line account_id transaction_date
            none description (if category.isEmpty then none else some category)
            |amount_value| transaction_type (if meta.isEmpty then none else some meta))
      | _, _ => none

/-- The AMEX ingest loop body (minimum 3 columns). -/
def processRows (account_id : Nat) : List (List String) → List Transaction
  | [] => []
  | row :: rest =>
      if row.isEmpty || row.length < 3 then processRows account_id rest
      else
        match rowToTransaction row account_id with
        | some t => t :: processRows account_id rest
        | none => processRows account_id rest

/-- AMEX `ingest`. -/
def ingest (rows : List (List String)) (account_id : Nat) :
    Except String (List Transaction) :=
  match rows with
  | [] => .error "Empty CSV file"
  | header :: dataRows =>
      if header ≠ csvHeaders then .error "CSV headers do not match expected format"
      else .ok (processRows account_id dataRows)

end Amex

/-! ## Transaction service (`src/services/transactions.py`)

The `transactions` table is a `List Transaction`; a fresh SQLite connection
per call makes `conn.total_changes` the number of rows this statement
inserted. -/

/-- Whether an id is stored (`SELECT 1 FROM transactions WHERE id = ?`). -/
def hasId (store : List Transaction) (i : String) : Bool :=
  store.any (fun s => s.id == i)

/-- Embeds `bulk_create`: `INSERT OR IGNORE` each record in order and report
`conn.total_changes` (rows actually inserted). -/
def bulkCreate (store : List Transaction) : List Transaction → Nat × List Transaction
  | [] => (0, store)
  | t :: rest =>
      if hasId store t.id then bulkCreate store rest
      else
        let (n, st) := bulkCreate (store ++ [t]) rest
        (n + 1, st)

/-- The field names `batch_update` accepts. -/
def supportedUpdateFields : List String :=
  ["category_id", "auto_category_id", "amortize_months", "amortize_end_date"]

/-- Copy one updatable column from the passed object into the stored row. -/
def applyUpdateField (f : String) (src dst : Transaction) : Transaction :=
  if f == "category_id" then { dst with category_id := src.category_id }
  else if f == "auto_category_id" then { dst with auto_category_id := src.auto_category_id }
  else if f == "amortize_months" then { dst with amortize_months := src.amortize_months }
  else if f == "amortize_end_date" then { dst with amortize_end_date := src.amortize_end_date }
  else dst

/-- One `UPDATE transactions SET ... WHERE id = ?`, returning the number of
matched rows and the updated table. -/
def updateOne (store : List Transaction) (fields : List String) (src : Transaction) :
    Nat × List Transaction :=
  (store.countP (fun t => t.id == src.id),
   store.map (fun t =>
     if t.id == src.id then fields.foldl (fun d f => applyUpdateField f src d) t else t))

/-- The `executemany` UPDATE loop: one UPDATE per passed object, threading
the table and accumulating the cursor's total rowcount. -/
def runBatchUpdate (field_names : List String) :
    List Transaction → List Transaction → Nat × List Transaction
  | store, [] => (0, store)
  | store, src :: rest =>
      let r := updateOne store field_names src
      let rr := runBatchUpdate field_names r.2 rest
      (r.1 + rr.1, rr.2)

/-- Embeds `batch_update`: empty batch returns 0 before any validation; then field
names are validated against `supportedUpdateFields` (`ValueError` modelled as
`Except.error`); then one UPDATE per transaction, returning the cursor's
total rowcount. -/
def batchUpdate (store : List Transaction) (transactions : List Transaction)
    (field_names : List String) : Except String (Nat × List Transaction) :=
  if transactions.isEmpty then .ok (0, store)
  else if field_names.isEmpty then .error "field_names cannot be empty"
  else if field_names.any (fun f => !(supportedUpdateFields.contains f)) then
    .error "Unsupported field names"
  else
    .ok (runBatchUpdate field_names store transactions)

/-- Embeds `update`: a single-element `batch_update`, `True` iff a row was matched. -/
def updateTx (store : List Transaction) (t : Transaction)
    (field_names : List String) : Except String (Bool × List Transaction) :=
  (batchUpdate store [t] field_names).map (fun p => (decide (0 < p.1), p.2))

/-- Embeds `find`: `SELECT ... WHERE id = ?` with `fetchone`. -/
def findTx (store : List Transaction) (transaction_id : String) : Option Transaction :=
  store.find? (fun t => t.id == transaction_id)

/-- Embeds `get_transactions_by_date_range`: date window plus optional account,
amortization-exclusion and category filters (an empty category list means no
filter; a `NULL` `category_id` never matches a `category_id IN (...)`). -/
def getTransactionsByDateRange (store : List Transaction) (start_date end_date : Date)
    (account_id : Option Nat) (exclude_amortized : Bool)
    (category_ids : Option (List Nat)) : List Transaction :=
  store.filter (fun t =>
    dateLe start_date t.transaction_date && dateLe t.transaction_date end_date
    && (match account_id with
        | some a => t.account_id == a
        | none => true)
    && (!exclude_amortized || t.amortize_months.isNone)
    && (match category_ids with
        | some ids =>
            ids.isEmpty ||
              (match t.category_id with
               | some c => ids.contains c
               | none => false)
        | none => true))

/-- Embeds `get_transactions_by_month`: the month's first through last day. -/
def getTransactionsByMonth (store : List Transaction) (year month : Nat)
    (account_id : Option Nat) (exclude_amortized : Bool)
    (category_ids : Option (List Nat)) : List Transaction :=
  getTransactionsByDateRange store ⟨year, month, 1⟩ ⟨year, month, daysInMonth year month⟩
    account_id exclude_amortized category_ids

/-- Transform a stored amortized transaction into its transient accrued view
for the month starting at `som`. -/
def accrueView (som : Date) (t : Transaction) : Transaction :=
  match t.amortize_months with
  | some k =>
      { t with
        transaction_date := som
        amount := round2 (t.amount / (k : ℚ))
        accrued := true }
  | none => t

/-- Embeds `get_accrued_transactions_by_month`: amortized transactions whose window
touches the requested month, each mapped to its transient accrued view
(`transaction_date <= end_of_month AND amortize_end_date >= start_of_month
AND amortize_months IS NOT NULL`).  A pure query: nothing is persisted. -/
def getAccruedTransactionsByMonth (store : List Transaction) (year month : Nat)
    (account_id : Option Nat) (category_ids : Option (List Nat)) : List Transaction :=
  let start_date : Date := ⟨year, month, 1⟩
  let end_date : Date := ⟨year, month, daysInMonth year month⟩
  (store.filter (fun t =>
      dateLe t.transaction_date end_date
      && (match t.amortize_end_date with
          | some e => dateLe start_date e
          | none => false)
      && t.amortize_months.isSome
      && (match account_id with
          | some a => t.account_id == a
          | none => true)
      && (match category_ids with
          | some ids =>
              ids.isEmpty ||
                (match t.category_id with
                 | some c => ids.contains c
                 | none => false)
          | none => true))).map (accrueView start_date)

/-! ## CLI commands (`src/cli/transactions.py`) -/

/-- Computes `transaction_date + relativedelta(months=k, day=31)`: advance `k`
calendar months and land on the last day of the resulting month
(`dateutil` normalizes the month and then clamps `day=31` to the month
length; valid input months `1..12`). -/
def relativedeltaMonthsDay31 (d : Date) (k : Nat) : Date :=
  let t := monthIdx d.year d.month + k
  ⟨t / 12, t % 12 + 1, daysInMonth (t / 12) (t % 12 + 1)⟩

/-- Embeds `cmd_set_amortization`: validate `months`, look the transaction up,
derive `amortize_end_date`, persist both fields.  The `Except.error` models
the CLI's `sys.exit(1)` paths; the second component is the resulting table. -/
def cmdSetAmortization (store : List Transaction) (transaction_id : String)
    (months : Int) : Except String Unit × List Transaction :=
  if months < 1 then (.error "Months must be a positive integer", store)
  else
    match findTx store transaction_id with
    | none => (.error "Transaction not found", store)
    | some t =>
        let amortize_end_date := relativedeltaMonthsDay31 t.transaction_date (months.toNat - 1)
        let t1 := { t with
          amortize_months := some months.toNat
          amortize_end_date := some amortize_end_date }
        match updateTx store t1 ["amortize_months", "amortize_end_date"] with
        | .error e => (.error e, store)
        | .ok (success, st) =>
            if success then (.ok (), st) else (.error "Failed to update transaction.", st)

/-- One row of the re-import CSV, restricted to the columns
`cmd_update_from_csv` reads. -/
structure UpdateRow where
  id : String
  category_name : String := ""
  auto_category_name : String := ""
  merchant_name : String := ""
  auto_merchant_name : String := ""
  amortize_months : String := ""
deriving DecidableEq

/-- Accumulated per-row update lists of `cmd_update_from_csv`. -/
structure CsvUpdates where
  category_updates : List Transaction := []
  merchant_updates : List Transaction := []
  amortization_updates : List Transaction := []
deriving DecidableEq

/-- The loop body of `cmd_update_from_csv` for one CSV row: explicit
user-entered category/merchant wins, an empty user field accepts the auto
suggestion, a filled `amortize_months` derives the amortization window.
Each decision mutates one in-memory transaction object; an object already
queued in an earlier list for this row is not queued again. -/
def processUpdateRow (store : List Transaction) (catalog : List (String × Nat))
    (acc : CsvUpdates) (row : UpdateRow) : CsvUpdates :=
  let category_name := pyStrip row.category_name
  let auto_category_name := pyStrip row.auto_category_name
  let merchant_name := pyStrip row.merchant_name
  let auto_merchant_name := pyStrip row.auto_merchant_name
  let amortize_months_str := pyStrip row.amortize_months
  match findTx store row.id with
  | none => acc
  | some t0 =>
      -- category update
      if !category_name.isEmpty && (catalog.find? (fun p => p.1 == category_name)).isNone then
        acc  -- unknown category name: the whole row is skipped
      else
        let catStep :
            Transaction × Bool :=
          if !category_name.isEmpty then
            match catalog.find? (fun p => p.1 == category_name) with
            | some p =>
                if t0.category_id ≠ some p.2 then ({ t0 with category_id := some p.2 }, true)
                else (t0, false)
            | none => (t0, false)
          else if !auto_category_name.isEmpty && t0.auto_category_id.isSome then
            if t0.category_id ≠ t0.auto_category_id then
              ({ t0 with category_id := t0.auto_category_id }, true)
            else (t0, false)
          else (t0, false)
        let t1 := catStep.1
        let category_changed := catStep.2
        -- merchant name update
        let merchStep : Transaction × Bool :=
          if !merchant_name.isEmpty then
            if t1.merchant_name ≠ some merchant_name then
              ({ t1 with merchant_name := some merchant_name }, true)
            else (t1, false)
          else if !auto_merchant_name.isEmpty && t1.auto_merchant_name.isSome then
            if t1.merchant_name ≠ t1.auto_merchant_name then
              ({ t1 with merchant_name := t1.auto_merchant_name }, true)
            else (t1, false)
          else (t1, false)
        let t2 := merchStep.1
        let merchant_changed := merchStep.2
        -- amortization update
        let amortStep : Transaction × Bool :=
          if amortize_months_str.isEmpty then (t2, false)
          else
            match parsePyInt amortize_months_str with
            | none => (t2, false)
            | some k =>
                if k < 1 then (t2, false)
                else if t2.amortize_months ≠ some k.toNat then
                  ({ t2 with
                      amortize_months := some k.toNat
                      amortize_end_date :=
                        some (relativedeltaMonthsDay31 t2.transaction_date (k.toNat - 1)) },
                   true)
                else (t2, false)
        let t3 := amortStep.1
        let amort_changed := amortStep.2
        { acc with
          category_updates :=
            if category_changed then acc.category_updates ++ [t3] else acc.category_updates
          merchant_updates :=
            if merchant_changed && !category_changed then acc.merchant_updates ++ [t3]
            else acc.merchant_updates
          amortization_updates :=
            if amort_changed && !category_changed && !merchant_changed then
              acc.amortization_updates ++ [t3]
            else acc.amortization_updates }

/-- Embeds `cmd_update_from_csv` after the header check: gather the three update
lists over all rows, then apply the three `batch_update` calls in order.
An exception from a batch call aborts the command (modelled as
`Except.error`), leaving the store as the already-committed batches made it. -/
def cmdUpdateFromCsv (store : List Transaction) (catalog : List (String × Nat))
    (rows : List UpdateRow) : Except String Unit × List Transaction :=
  let u := rows.foldl (processUpdateRow store catalog) {}
  if u.category_updates.isEmpty && u.merchant_updates.isEmpty
      && u.amortization_updates.isEmpty then
    (.ok (), store)
  else
    match (if u.category_updates.isEmpty then .ok (0, store)
           else batchUpdate store u.category_updates ["category_id"]) with
    | .error e => (.error e, store)
    | .ok (_, s1) =>
        match (if u.merchant_updates.isEmpty then .ok (0, s1)
               else batchUpdate s1 u.merchant_updates ["merchant_name"]) with
        | .error e => (.error e, s1)
        | .ok (_, s2) =>
            match (if u.amortization_updates.isEmpty then .ok (0, s2)
                   else batchUpdate s2 u.amortization_updates
                     ["amortize_months", "amortize_end_date"]) with
            | .error e => (.error e, s2)
            | .ok (_, s3) => (.ok (), s3)

/-! ## Reporting tools (`src/tools/transactions.py`) -/

/-- The calendar months visited by the `while (y, m) <= (ey, em)` loop,
as `(year, month)` pairs (for input months in `1..12`).  The string month
key `"YYYY/MM"` is embedded as the pair itself. -/
def monthsBetween (sy sm ey em : Nat) : List (Nat × Nat) :=
  (List.range' (monthIdx sy sm) (monthIdx ey em + 1 - monthIdx sy sm)).map
    (fun t => (t / 12, t % 12 + 1))

/-- Embeds `get_period_transactions`: for each month of the inclusive range, the
cash-basis list (`exclude_amortized=True`) and the accrual-basis list. -/
def getPeriodTransactions (store : List Transaction) (start_month end_month : Date)
    (category_ids : Option (List Nat)) :
    List ((Nat × Nat) × List Transaction × List Transaction) :=
  (monthsBetween start_month.year start_month.month end_month.year end_month.month).map
    (fun ym =>
      (ym,
       getTransactionsByMonth store ym.1 ym.2 none true category_ids,
       getAccruedTransactionsByMonth store ym.1 ym.2 none category_ids))

/-- Month-key lookup in a per-month result list. -/
def lookupMonth {α : Type} (l : List ((Nat × Nat) × α)) (ym : Nat × Nat) : Option α :=
  (l.find? (fun p => p.1 == ym)).map (fun p => p.2)

/-- One month's folded summary. -/
structure MonthSummary where
  income_total : ℚ
  expense_total : ℚ
  net : ℚ
  expenses_by_category : List (Nat × ℚ)
deriving DecidableEq

/-- Performs `expenses_by_category[cid] += amount` with dict-style key insertion. -/
def bumpCategory (l : List (Nat × ℚ)) (k : Nat) (v : ℚ) : List (Nat × ℚ) :=
  match l with
  | [] => [(k, v)]
  | (k1, v1) :: rest =>
      if k1 = k then (k1, v1 + v) :: rest else (k1, v1) :: bumpCategory rest k v

/-- Assoc lookup in the by-category dict (Python `d[k]` when present). -/
def lookupCategory : List (Nat × ℚ) → Nat → Option ℚ
  | [], _ => none
  | (k1, v1) :: rest, k => if k1 = k then some v1 else lookupCategory rest k

/-- The aggregation loop body of `get_period_summary`: income and expense
totals, expenses bucketed by `category_id` with sentinel `0` for
uncategorized; `transfer` rows touch nothing. -/
def summaryStep (acc : ℚ × ℚ × List (Nat × ℚ)) (t : Transaction) :
    ℚ × ℚ × List (Nat × ℚ) :=
  if t.type == "income" then (acc.1 + t.amount, acc.2.1, acc.2.2)
  else if t.type == "expense" then
    (acc.1, acc.2.1 + t.amount, bumpCategory acc.2.2 (t.category_id.getD 0) t.amount)
  else acc

/-- Fold one month's transaction list into its summary. -/
def summarize (ts : List Transaction) : MonthSummary :=
  let r := ts.foldl summaryStep (0, 0, [])
  ⟨r.1, r.2.1, r.1 - r.2.1, r.2.2⟩

/-- Embeds `get_period_summary`: the per-month summaries of both bases. -/
def getPeriodSummary (store : List Transaction) (start_month end_month : Date)
    (category_ids : Option (List Nat)) :
    List ((Nat × Nat) × MonthSummary × MonthSummary) :=
  (getPeriodTransactions store start_month end_month category_ids).map
    (fun e => (e.1, summarize e.2.1, summarize e.2.2))

/-! ## Claim C1 - content-addressed identity -/

/-- A Chase export line with a quoted description field. -/
def c1LineQuoted : String := "01/15/2024,01/16/2024,\"STORE A\",Food,Sale,-5.00,"

/-- The same line with the quotes removed: it parses to the same field list. -/
def c1LinePlain : String := "01/15/2024,01/16/2024,STORE A,Food,Sale,-5.00,"

/-- C1 (counterexample): two differently-formatted source lines that parse to
the same logical transaction receive the SAME id, not different ids: the
adapter hashes `",".join(row)` of the already-parsed fields, so CSV quoting
differences in the original line are erased before hashing. -/
theorem chase_id_quoting_counterexample :
    c1LineQuoted ≠ c1LinePlain
    ∧ csvParseLine c1LineQuoted = csvParseLine c1LinePlain
    ∧ (Chase.rowToTransaction (csvParseLine c1LineQuoted) 1).isSome = true
    ∧ (Chase.rowToTransaction (csvParseLine c1LineQuoted) 1).map Transaction.id
        = (Chase.rowToTransaction (csvParseLine c1LinePlain) 1).map Transaction.id := by
  have h : csvParseLine c1LineQuoted = csvParseLine c1LinePlain := by decide
  exact ⟨by decide, h, by decide, by rw [h]⟩

/-- C1 (amended): for every source row accepted by the Chase adapter, the
transaction's id is the SHA-256 hex digest of the comma-join of the parsed
fields of the row (original column order and in-field whitespace preserved,
but CSV quoting is normalized away by parsing); consequently two
differently-formatted lines that parse to the same field list receive the
same id. -/
theorem chase_id_hashes_joined_fields :
    (∀ (row : List String) (account_id : Nat) (t : Transaction),
        Chase.rowToTransaction row account_id = some t →
        t.id = sha256Hex (String.intercalate "," row))
    ∧ (∀ (l1 l2 : String) (account_id : Nat),
        csvParseLine l1 = csvParseLine l2 →
        (Chase.rowToTransaction (csvParseLine l1) account_id).map Transaction.id
          = (Chase.rowToTransaction (csvParseLine l2) account_id).map Transaction.id) := by
  constructor
  · intro row account_id t h
    simp only [Chase.rowToTransaction] at h
    split at h
    · exact Option.noConfusion h
    · split at h
      · exact Option.noConfusion h
      · split at h
        · injection h with h; subst h; rfl
        · exact Option.noConfusion h
  · intro l1 l2 account_id h
    rw [h]

/-- Witness for C1: a concrete accepted Chase row and its hash input. -/
def c1Row : List String :=
  ["01/15/2024", "01/16/2024", "STORE A", "Food", "Sale", "-5.00", ""]

/-- C1 witness: the amended statement applied to a concrete accepted row. -/
theorem chase_id_hashes_joined_fields_witness :
    ∃ t, Chase.rowToTransaction c1Row 1 = some t
      ∧ t.id = sha256Hex "01/15/2024,01/16/2024,STORE A,Food,Sale,-5.00," := by
  have hs : (Chase.rowToTransaction c1Row 1).isSome = true := by decide
  obtain ⟨t, ht⟩ := Option.isSome_iff_exists.mp hs
  refine ⟨t, ht, ?_⟩
  have hid := chase_id_hashes_joined_fields.1 c1Row 1 t ht
  have hj : String.intercalate "," c1Row
      = "01/15/2024,01/16/2024,STORE A,Food,Sale,-5.00," := by decide
  rw [hid, hj]

/-! ## Claim C3 - the amortization window -/

/-- Follows the spec's words: `transaction_date + k calendar months`,
with the standard day-of-month clamp of calendar-month addition. -/
def specAddCalendarMonths (d : Date) (k : Nat) : Date :=
  let t := monthIdx d.year d.month + k
  ⟨t / 12, t % 12 + 1, min d.day (daysInMonth (t / 12) (t % 12 + 1))⟩

/-- Follows the spec's words: clamp to the last day of the month. -/
def specLastDayOfMonth (d : Date) : Date :=
  ⟨d.year, d.month, daysInMonth d.year d.month⟩

/-- Follows the spec's words:
`amortize_end_date = transaction_date + (months - 1) calendar months,
clamped to the last day of that resulting month`. -/
def specAmortizeEndDate (d : Date) (months : Nat) : Date :=
  specLastDayOfMonth (specAddCalendarMonths d (months - 1))

/-- Helper: folding the two amortization columns into a stored row copies
exactly those two fields from the passed object. -/
theorem applyAmortPair (src x : Transaction) :
    (["amortize_months", "amortize_end_date"].foldl (fun d f => applyUpdateField f src d) x)
      = { x with
          amortize_months := src.amortize_months
          amortize_end_date := src.amortize_end_date } := rfl

/-- Helper: the `dateutil` computation and the spec formula agree. -/
theorem relativedelta_eq_specAmortize (d : Date) (months : Nat) :
    relativedeltaMonthsDay31 d (months - 1) = specAmortizeEndDate d months := rfl

/-- C3: the code's `relativedelta(months=months-1, day=31)` end date equals
the spec formula `transaction_date + (months-1) calendar months, clamped to
the last day of that month`; the spec's concrete example holds; `months < 1`
is rejected before any mutation; and on success the stored transaction
carries exactly the derived window. -/
theorem set_amortization_end_date_spec :
    (∀ (d : Date) (months : Nat), 1 ≤ months →
        relativedeltaMonthsDay31 d (months - 1) = specAmortizeEndDate d months)
    ∧ relativedeltaMonthsDay31 ⟨2024, 1, 15⟩ (12 - 1) = ⟨2024, 12, 31⟩
    ∧ (∀ (store : List Transaction) (tid : String) (months : Int), months < 1 →
        cmdSetAmortization store tid months
          = (.error "Months must be a positive integer", store))
    ∧ (∀ (store : List Transaction) (tid : String) (months : Int) (t : Transaction),
        1 ≤ months → findTx store tid = some t →
        ∀ u ∈ (cmdSetAmortization store tid months).2, u.id = t.id →
          u.amortize_months = some months.toNat
          ∧ u.amortize_end_date = some (specAmortizeEndDate t.transaction_date months.toNat)) := by
  refine ⟨fun d months _ => relativedelta_eq_specAmortize d months, by decide, ?_, ?_⟩
  · intro store tid months h
    unfold cmdSetAmortization
    rw [if_pos h]
  · intro store tid months t hm hfind u hu huid
    have hlt : ¬months < 1 := by omega
    set t1 : Transaction :=
      { t with
        amortize_months := some months.toNat
        amortize_end_date :=
          some (relativedeltaMonthsDay31 t.transaction_date (months.toNat - 1)) } with ht1
    have hupd : updateTx store t1 ["amortize_months", "amortize_end_date"]
        = .ok (decide (0 < (updateOne store ["amortize_months", "amortize_end_date"] t1).1),
               (updateOne store ["amortize_months", "amortize_end_date"] t1).2) := rfl
    have hsnd : (cmdSetAmortization store tid months).2
        = (updateOne store ["amortize_months", "amortize_end_date"] t1).2 := by
      unfold cmdSetAmortization
      rw [if_neg hlt, hfind]
      simp only [hupd]
      split <;> rfl
    rw [hsnd] at hu
    unfold updateOne at hu
    simp only [List.mem_map] at hu
    obtain ⟨x, hx, hxe⟩ := hu
    by_cases hb : (x.id == t1.id) = true
    · rw [if_pos hb] at hxe
      rw [applyAmortPair] at hxe
      subst hxe
      exact ⟨rfl, congrArg some (relativedelta_eq_specAmortize t.transaction_date months.toNat).symm ▸ rfl⟩
    · rw [if_neg hb] at hxe
      subst hxe
      exact absurd huid (by simpa using hb)

/-- A stored transaction dated 2024-01-15 for the C3 witness. -/
def c3Tx : Transaction := { id := "c3", account_id := 1, transaction_date := ⟨2024, 1, 15⟩ }

/-- Its expected state after `set-amortization` over 12 months. -/
def c3TxUpd : Transaction :=
  { c3Tx with amortize_months := some 12, amortize_end_date := some ⟨2024, 12, 31⟩ }

/-- C3 witness: the theorem applied at `2024-01-15`, `months = 12` (window
ends 2024-12-31) and at the rejected input `months = 0`. -/
theorem set_amortization_end_date_spec_witness :
    relativedeltaMonthsDay31 ⟨2024, 1, 15⟩ (12 - 1) = specAmortizeEndDate ⟨2024, 1, 15⟩ 12
    ∧ cmdSetAmortization [c3Tx] "c3" 0 = (.error "Months must be a positive integer", [c3Tx])
    ∧ c3TxUpd.amortize_months = some ((12 : Int).toNat)
    ∧ c3TxUpd.amortize_end_date
        = some (specAmortizeEndDate c3Tx.transaction_date (12 : Int).toNat) := by
  have h4 := set_amortization_end_date_spec.2.2.2 [c3Tx] "c3" 12 c3Tx (by decide)
    (by decide) c3TxUpd (by decide) (by decide)
  exact ⟨set_amortization_end_date_spec.1 ⟨2024, 1, 15⟩ 12 (by decide),
    set_amortization_end_date_spec.2.2.1 [c3Tx] "c3" 0 (by decide), h4.1, h4.2⟩

/-! ## Claim C4 - the accrual-basis query -/

/-- C4: the accrual-basis query returns exactly the stored transactions that
are amortized and whose window `[transaction_date, amortize_end_date]`
intersects the requested month (`transaction_date <= end_of_month` and
`amortize_end_date >= start_of_month`), each as a transient record with
`transaction_date` reset to the first day of the month,
`amount = round(original / amortize_months, 2)`, `accrued = true` and all
other fields copied.  The query is a pure function of the store: the
transient record is never persisted. -/
theorem accrued_query_characterization :
    ∀ (store : List Transaction) (year month : Nat) (r : Transaction),
      r ∈ getAccruedTransactionsByMonth store year month none none ↔
        ∃ t ∈ store, ∃ k,
          t.amortize_months = some k
          ∧ (∃ e, t.amortize_end_date = some e ∧ dateLe ⟨year, month, 1⟩ e = true)
          ∧ dateLe t.transaction_date ⟨year, month, daysInMonth year month⟩ = true
          ∧ r = { t with
                  transaction_date := ⟨year, month, 1⟩
                  amount := round2 (t.amount / (k : ℚ))
                  accrued := true } := by
  intro store year month r
  unfold getAccruedTransactionsByMonth
  simp only [List.mem_map, List.mem_filter]
  constructor
  · rintro ⟨t, ⟨ht, hcond⟩, rfl⟩
    simp only [Bool.and_true, Bool.and_eq_true] at hcond
    obtain ⟨⟨hd, he⟩, hs⟩ := hcond
    obtain ⟨k, hk⟩ := Option.isSome_iff_exists.mp hs
    refine ⟨t, ht, k, hk, ?_, hd, ?_⟩
    · revert he
      cases hce : t.amortize_end_date with
      | none => intro he; exact absurd he (by simp)
      | some e => intro he; exact ⟨e, rfl, he⟩
    · unfold accrueView
      rw [hk]
  · rintro ⟨t, ht, k, hk, ⟨e, hed, hle⟩, hd, rfl⟩
    refine ⟨t, ⟨ht, ?_⟩, ?_⟩
    · simp [hk, hed, hd, hle]
    · unfold accrueView
      rw [hk]

/-! ## Claim C5 - bulk insert dedup idempotence -/

/-- Helper: inserting more records never removes an already-present id. -/
theorem hasId_bulkCreate (store : List Transaction) (ts : List Transaction)
    (i : String) (h : hasId store i = true) :
    hasId (bulkCreate store ts).2 i = true := by
  induction ts generalizing store with
  | nil => exact h
  | cons t rest ih =>
      unfold bulkCreate
      by_cases hdup : hasId store t.id = true
      · rw [if_pos hdup]
        exact ih store h
      · rw [if_neg hdup]
        refine ih (store ++ [t]) ?_
        unfold hasId at h ⊢
        simp [List.any_append, h]

/-- Helper: after a bulk insert, every batch record's id is present. -/
theorem mem_id_bulkCreate (store : List Transaction) (ts : List Transaction) :
    ∀ t ∈ ts, hasId (bulkCreate store ts).2 t.id = true := by
  induction ts generalizing store with
  | nil => intro t ht; exact absurd ht (List.not_mem_nil t)
  | cons x rest ih =>
      intro t ht
      unfold bulkCreate
      by_cases hdup : hasId store x.id = true
      · rw [if_pos hdup]
        rcases List.mem_cons.mp ht with h | h
        · subst h; exact hasId_bulkCreate store rest t.id hdup
        · exact ih store t h
      · rw [if_neg hdup]
        rcases List.mem_cons.mp ht with h | h
        · subst h
          refine hasId_bulkCreate (store ++ [t]) rest t.id ?_
          unfold hasId
          simp [List.any_append]
        · exact ih (store ++ [x]) t h

/-- Helper: a batch of already-present ids inserts nothing. -/
theorem bulkCreate_stable (store : List Transaction) (ts : List Transaction)
    (h : ∀ t ∈ ts, hasId store t.id = true) :
    bulkCreate store ts = (0, store) := by
  induction ts with
  | nil => rfl
  | cons t rest ih =>
      unfold bulkCreate
      rw [if_pos (h t (List.mem_cons_self t rest))]
      exact ih (fun x hx => h x (List.mem_cons_of_mem t hx))

/-- Helper: a bulk insert appends some list and reports its length. -/
theorem bulkCreate_appends (ts : List Transaction) : ∀ (store : List Transaction),
    ∃ added, (bulkCreate store ts).2 = store ++ added
      ∧ (bulkCreate store ts).1 = added.length := by
  induction ts with
  | nil => intro store; exact ⟨[], by simp [bulkCreate]⟩
  | cons t rest ih =>
      intro store
      unfold bulkCreate
      by_cases hdup : hasId store t.id = true
      · rw [if_pos hdup]
        exact ih store
      · rw [if_neg hdup]
        obtain ⟨added, h2, h1⟩ := ih (store ++ [t])
        refine ⟨t :: added, ?_, ?_⟩
        · show (bulkCreate (store ++ [t]) rest).2 = _
          rw [h2, List.append_assoc]
          rfl
        · show (bulkCreate (store ++ [t]) rest).1 + 1 = _
          rw [h1]
          simp [Nat.add_comm]

/-- Helper: for a batch of pairwise-distinct ids, a bulk insert appends
exactly the records with unstored ids and counts them. -/
theorem bulkCreate_nodup (ts : List Transaction) : ∀ (store : List Transaction),
    (ts.map Transaction.id).Nodup →
      (bulkCreate store ts).2 = store ++ ts.filter (fun t => !(hasId store t.id))
      ∧ (bulkCreate store ts).1 = (ts.filter (fun t => !(hasId store t.id))).length := by
  induction ts with
  | nil => intro store _; exact ⟨by simp [bulkCreate], rfl⟩
  | cons t rest ih =>
      intro store hnd
      have hnd' : (rest.map Transaction.id).Nodup := (List.nodup_cons.mp hnd).2
      have hni : t.id ∉ rest.map Transaction.id := (List.nodup_cons.mp hnd).1
      unfold bulkCreate
      by_cases hdup : hasId store t.id = true
      · rw [if_pos hdup]
        have hfil : (t :: rest).filter (fun x => !(hasId store x.id))
            = rest.filter (fun x => !(hasId store x.id)) := by
          simp [List.filter_cons, hdup]
        rw [hfil]
        exact ih store hnd'
      · rw [if_neg hdup]
        obtain ⟨h2, h1⟩ := ih (store ++ [t]) hnd'
        have hsame : rest.filter (fun x => !(hasId (store ++ [t]) x.id))
            = rest.filter (fun x => !(hasId store x.id)) := by
          refine List.filter_congr ?_
          intro x hx
          have hne : t.id ≠ x.id := by
            intro he
            exact hni (he ▸ List.mem_map_of_mem Transaction.id hx)
          unfold hasId
          simp only [List.any_append, List.any_cons, List.any_nil]
          have : (t.id == x.id) = false := by
            simpa using hne
          simp [this]
        have hfil : (t :: rest).filter (fun x => !(hasId store x.id))
            = t :: rest.filter (fun x => !(hasId store x.id)) := by
          simp [List.filter_cons, hdup]
        constructor
        · show (bulkCreate (store ++ [t]) rest).2 = _
          rw [h2, hsame, hfil, List.append_assoc]
          rfl
        · show (bulkCreate (store ++ [t]) rest).1 + 1 = _
          rw [h1, hsame, hfil]
          simp [Nat.add_comm]

/-- C5: re-running a bulk insert on the same batch leaves the table identical
and reports 0 newly inserted; a bulk insert only appends records and reports
exactly the number appended; and (for a batch of distinct ids) it persists
exactly the records whose id is not already stored, silently discarding the
rest - `bulkCreate` is total, so a duplicate id never raises. -/
theorem bulk_create_dedup_idempotent :
    ∀ (store ts : List Transaction),
      bulkCreate (bulkCreate store ts).2 ts = (0, (bulkCreate store ts).2)
      ∧ (∃ added, (bulkCreate store ts).2 = store ++ added
            ∧ (bulkCreate store ts).1 = added.length)
      ∧ ((ts.map Transaction.id).Nodup →
          (bulkCreate store ts).2
              = store ++ ts.filter (fun t => !(hasId store t.id))
            ∧ (bulkCreate store ts).1
              = (ts.filter (fun t => !(hasId store t.id))).length) := by
  intro store ts
  exact ⟨bulkCreate_stable _ _ (fun t ht => mem_id_bulkCreate store ts t ht),
    bulkCreate_appends ts store, bulkCreate_nodup ts store⟩

/-- Two fresh transactions for the C5 witness. -/
def c5T1 : Transaction := { id := "a1", account_id := 1, transaction_date := ⟨2024, 1, 1⟩ }

/-- Second C5 witness transaction. -/
def c5T2 : Transaction := { id := "b2", account_id := 1, transaction_date := ⟨2024, 1, 2⟩ }

/-- C5 witness: ingesting a concrete two-record batch into an empty store
inserts both; re-ingesting inserts 0 and leaves the store unchanged. -/
theorem bulk_create_dedup_idempotent_witness :
    (([c5T1, c5T2].map Transaction.id).Nodup)
    ∧ (bulkCreate [] [c5T1, c5T2]).2
        = [] ++ [c5T1, c5T2].filter (fun t => !(hasId [] t.id))
    ∧ (bulkCreate [] [c5T1, c5T2]).1
        = ([c5T1, c5T2].filter (fun t => !(hasId [] t.id))).length
    ∧ bulkCreate (bulkCreate [] [c5T1, c5T2]).2 [c5T1, c5T2]
        = (0, (bulkCreate [] [c5T1, c5T2]).2) := by
  have hnd : (([c5T1, c5T2] : List Transaction).map Transaction.id).Nodup := by decide
  obtain ⟨h2, h1⟩ := (bulk_create_dedup_idempotent [] [c5T1, c5T2]).2.2 hnd
  exact ⟨hnd, h2, h1, (bulk_create_dedup_idempotent [] [c5T1, c5T2]).1⟩

/-! ## Claim C6 - basis exclusivity -/

/-- C6: in every month of a period query, an amortized transaction never
appears in the cash-basis list, a non-amortized transaction never appears in
the accrual-basis list, and (without a category filter) the cash-basis list
is exactly the non-amortized stored transactions dated inside the calendar
month. -/
theorem basis_exclusivity :
    ∀ (store : List Transaction) (startM endM : Date) (catF : Option (List Nat))
      (ym : Nat × Nat) (cash accr : List Transaction),
      lookupMonth (getPeriodTransactions store startM endM catF) ym = some (cash, accr) →
        (∀ t ∈ cash, t.amortize_months = none)
        ∧ (∀ r ∈ accr, r.amortize_months ≠ none)
        ∧ (catF = none →
            cash = store.filter (fun t =>
              dateLe ⟨ym.1, ym.2, 1⟩ t.transaction_date
              && dateLe t.transaction_date ⟨ym.1, ym.2, daysInMonth ym.1 ym.2⟩
              && t.amortize_months.isNone)) := by
  intro store startM endM catF ym cash accr h
  unfold lookupMonth at h
  cases hf : (getPeriodTransactions store startM endM catF).find? (fun p => p.1 == ym) with
  | none => rw [hf] at h; exact absurd h (by simp)
  | some p =>
      rw [hf] at h
      have hp := List.find?_some hf
      have hmem := List.mem_of_find?_eq_some hf
      unfold getPeriodTransactions at hmem
      simp only [List.mem_map] at hmem
      obtain ⟨ym', _hym', hpe⟩ := hmem
      subst hpe
      have hyy : ym' = ym := by simpa using hp
      subst hyy
      simp only [Option.map_some'] at h
      injection h with h1
      injection h1 with hc0 ha0
      have hc : cash = getTransactionsByMonth store ym'.1 ym'.2 none true catF := hc0.symm
      have ha : accr = getAccruedTransactionsByMonth store ym'.1 ym'.2 none catF := ha0.symm
      refine ⟨?_, ?_, ?_⟩
      · intro t ht
        rw [hc] at ht
        unfold getTransactionsByMonth getTransactionsByDateRange at ht
        have := (List.mem_filter.mp ht).2
        simp only [Bool.and_eq_true] at this
        exact Option.isNone_iff_eq_none.mp this.1.2
      · intro r hr
        rw [ha] at hr
        unfold getAccruedTransactionsByMonth at hr
        simp only [List.mem_map, List.mem_filter] at hr
        obtain ⟨t, ⟨_, hcond⟩, hacc⟩ := hr
        simp only [Bool.and_eq_true] at hcond
        obtain ⟨⟨⟨⟨_hd, _he⟩, hs⟩, -⟩, -⟩ := hcond
        obtain ⟨k, hk⟩ := Option.isSome_iff_exists.mp hs
        subst hacc
        unfold accrueView
        rw [hk]
        simp
      · intro hcat
        subst hcat
        rw [hc]
        unfold getTransactionsByMonth getTransactionsByDateRange
        refine List.filter_congr ?_
        intro t _
        simp

/-- An amortized transaction (3 months from 2024-01-10) for the C6 witness. -/
def c6Amort : Transaction :=
  { id := "am", account_id := 1, transaction_date := ⟨2024, 1, 10⟩, amount := 12,
    amortize_months := some 3, amortize_end_date := some ⟨2024, 3, 31⟩ }

/-- A plain one-shot transaction for the C6 witness. -/
def c6Cash : Transaction :=
  { id := "ca", account_id := 1, transaction_date := ⟨2024, 1, 20⟩, amount := 5 }

/-- C6 witness: the theorem applied to a concrete store for January 2024. -/
theorem basis_exclusivity_witness :
    lookupMonth (getPeriodTransactions [c6Amort, c6Cash] ⟨2024, 1, 1⟩ ⟨2024, 1, 31⟩ none)
        (2024, 1) = some ([c6Cash], [accrueView ⟨2024, 1, 1⟩ c6Amort])
    ∧ c6Cash.amortize_months = none
    ∧ (accrueView ⟨2024, 1, 1⟩ c6Amort).amortize_months ≠ none
    ∧ [c6Cash] = [c6Amort, c6Cash].filter (fun t =>
        dateLe ⟨2024, 1, 1⟩ t.transaction_date
        && dateLe t.transaction_date ⟨2024, 1, daysInMonth 2024 1⟩
        && t.amortize_months.isNone) := by
  have h := basis_exclusivity [c6Amort, c6Cash] ⟨2024, 1, 1⟩ ⟨2024, 1, 31⟩ none (2024, 1)
    [c6Cash] [accrueView ⟨2024, 1, 1⟩ c6Amort] rfl
  exact ⟨rfl, h.1 c6Cash (List.mem_singleton.mpr rfl),
    h.2.1 _ (List.mem_singleton.mpr rfl), h.2.2 rfl⟩

/-! ## Claim C7 - the accrual rounding bound -/

/-- Helper: half-even rounding moves a rational by at most one half. -/
theorem roundHalfEven_sub_le (q : ℚ) : |(roundHalfEven q : ℚ) - q| ≤ 1 / 2 := by
  have h1 : ((⌊q⌋ : ℚ)) ≤ q := Int.floor_le q
  have h2 : q < (⌊q⌋ : ℚ) + 1 := Int.lt_floor_add_one q
  simp only [roundHalfEven]
  split_ifs with ha hb hc
  · rw [abs_le]; constructor <;> linarith
  · rw [abs_le]; push_cast; constructor <;> linarith
  · rw [abs_le]; constructor <;> linarith
  · rw [abs_le]; push_cast; constructor <;> linarith

/-- Helper: half-even rounding is exact on integers. -/
theorem roundHalfEven_intCast (q : ℚ) (h : q.den = 1) : (roundHalfEven q : ℚ) = q := by
  have hq : ((q.num : ℚ)) = q := by
    conv_rhs => rw [← Rat.num_div_den q]
    rw [h]
    simp
  have hfl : ⌊q⌋ = q.num := by
    rw [← hq]
    exact Int.floor_intCast q.num
  simp only [roundHalfEven, hfl, hq]
  rw [if_pos (by norm_num)]
  exact hq

/-- Helper: summing a constant over a list multiplies it by the length. -/
theorem sum_map_constQ (l : List (Nat × Nat)) (c : ℚ) :
    (l.map (fun _ => c)).sum = l.length * c := by
  induction l with
  | nil => simp
  | cons x xs ih => simp [ih]; ring

/-- C7: for an amortized transaction with whole-cent amount `A` and
`amortize_months = k >= 1`, the amortization window set by the scheduler
covers exactly `k` calendar months, and the sum over those covered months of
the per-month accrued amount `round(A / k, 2)` differs from `A` by at most
`(k - 1) * 0.01` in absolute value. -/
theorem accrual_rounding_bound :
    ∀ (A : ℚ) (k : Nat) (d : Date), 1 ≤ k → (A * 100).den = 1 →
      (monthsBetween d.year d.month
          (relativedeltaMonthsDay31 d (k - 1)).year
          (relativedeltaMonthsDay31 d (k - 1)).month).length = k
      ∧ |((monthsBetween d.year d.month
            (relativedeltaMonthsDay31 d (k - 1)).year
            (relativedeltaMonthsDay31 d (k - 1)).month).map
          (fun _ => round2 (A / (k : ℚ)))).sum - A|
        ≤ ((k : ℚ) - 1) / 100 := by
  intro A k d hk hden
  have hT : monthIdx (relativedeltaMonthsDay31 d (k - 1)).year
      (relativedeltaMonthsDay31 d (k - 1)).month
      = monthIdx d.year d.month + (k - 1) := by
    show ((d.year * 12 + (d.month - 1) + (k - 1)) / 12) * 12
        + ((d.year * 12 + (d.month - 1) + (k - 1)) % 12 + 1 - 1)
        = d.year * 12 + (d.month - 1) + (k - 1)
    have hdm := Nat.div_add_mod (d.year * 12 + (d.month - 1) + (k - 1)) 12
    omega
  have hlen : (monthsBetween d.year d.month
      (relativedeltaMonthsDay31 d (k - 1)).year
      (relativedeltaMonthsDay31 d (k - 1)).month).length = k := by
    unfold monthsBetween
    rw [List.length_map, List.length_range', hT]
    omega
  refine ⟨hlen, ?_⟩
  rw [sum_map_constQ, hlen]
  rcases Nat.lt_or_ge k 2 with hk1 | hk2
  · have hke : k = 1 := by omega
    subst hke
    have hA : round2 (A / ((1 : Nat) : ℚ)) = A := by
      rw [Nat.cast_one, div_one, round2, roundHalfEven_intCast (A * 100) hden]
      field_simp
    rw [hA]
    norm_num
  · have hkQ : (2 : ℚ) ≤ (k : ℚ) := by exact_mod_cast hk2
    have hk0 : ((k : ℚ)) ≠ 0 := by positivity
    set y : ℚ := A / (k : ℚ) * 100 with hy
    have hky : (k : ℚ) * y = A * 100 := by
      rw [hy]; field_simp
    have hb := roundHalfEven_sub_le y
    have hexp : (k : ℚ) * round2 (A / (k : ℚ)) - A
        = ((k : ℚ) * ((roundHalfEven y : ℚ) - y)) / 100 := by
      have hsplit : ((k : ℚ) * ((roundHalfEven y : ℚ) - y)) / 100
          = ((k : ℚ) * (roundHalfEven y : ℚ) - (k : ℚ) * y) / 100 := by ring
      rw [hsplit, hky, round2, ← hy]
      ring
    rw [hexp, abs_div, abs_mul]
    rw [abs_of_nonneg (by positivity : (0 : ℚ) ≤ (k : ℚ))]
    rw [abs_of_nonneg (by norm_num : (0 : ℚ) ≤ (100 : ℚ))]
    rw [div_le_div_iff₀ (by norm_num) (by norm_num)]
    have hmul : (k : ℚ) * |(roundHalfEven y : ℚ) - y| ≤ (k : ℚ) * (1 / 2) :=
      mul_le_mul_of_nonneg_left hb (by positivity)
    nlinarith [hmul, hkQ]

/-- C7 witness: the bound instantiated at `A = 1.00`, `k = 3`,
`d = 2024-01-15` (the window covers 3 months). -/
theorem accrual_rounding_bound_witness :
    (1 : Nat) ≤ 3 ∧ (((1 : ℚ)) * 100).den = 1
    ∧ (monthsBetween 2024 1
        (relativedeltaMonthsDay31 ⟨2024, 1, 15⟩ (3 - 1)).year
        (relativedeltaMonthsDay31 ⟨2024, 1, 15⟩ (3 - 1)).month).length = 3
    ∧ |((monthsBetween 2024 1
          (relativedeltaMonthsDay31 ⟨2024, 1, 15⟩ (3 - 1)).year
          (relativedeltaMonthsDay31 ⟨2024, 1, 15⟩ (3 - 1)).month).map
        (fun _ => round2 ((1 : ℚ) / ((3 : Nat) : ℚ)))).sum - 1|
      ≤ (((3 : Nat) : ℚ) - 1) / 100 := by
  have hden : (((1 : ℚ)) * 100).den = 1 := by norm_num
  have h := accrual_rounding_bound 1 3 ⟨2024, 1, 15⟩ (by norm_num) hden
  exact ⟨by norm_num, hden, h.1, h.2⟩

/-! ## Claim C8 - the period summary -/

/-- What one month's folded summary must say about its transaction list:
income and expense totals (transfers in neither), their difference as `net`,
and per-category expense buckets with sentinel key `0` for uncategorized. -/
def summaryMatches (s : MonthSummary) (ts : List Transaction) : Prop :=
  s.income_total = ((ts.filter (fun t => t.type == "income")).map Transaction.amount).sum
  ∧ s.expense_total = ((ts.filter (fun t => t.type == "expense")).map Transaction.amount).sum
  ∧ s.net = s.income_total - s.expense_total
  ∧ ∀ k, lookupCategory s.expenses_by_category k =
      (if ts.any (fun t => t.type == "expense" && (t.category_id.getD 0 == k))
       then some (((ts.filter
            (fun t => t.type == "expense" && (t.category_id.getD 0 == k))).map
              Transaction.amount).sum)
       else none)

/-- Helper: the first component of the aggregation fold accumulates the
income amounts. -/
theorem summaryFold_income (ts : List Transaction) : ∀ (acc : ℚ × ℚ × List (Nat × ℚ)),
    (ts.foldl summaryStep acc).1
      = acc.1 + ((ts.filter (fun t => t.type == "income")).map Transaction.amount).sum := by
  induction ts with
  | nil => intro acc; simp
  | cons t rest ih =>
      intro acc
      rw [List.foldl_cons, ih]
      unfold summaryStep
      by_cases h1 : (t.type == "income") = true
      · rw [if_pos h1]
        simp [List.filter_cons, h1]
        ring
      · rw [if_neg h1]
        by_cases h2 : (t.type == "expense") = true
        · rw [if_pos h2]
          simp [List.filter_cons, h1]
        · rw [if_neg h2]
          simp [List.filter_cons, h1]

/-- Helper: the second component accumulates the expense amounts. -/
theorem summaryFold_expense (ts : List Transaction) : ∀ (acc : ℚ × ℚ × List (Nat × ℚ)),
    (ts.foldl summaryStep acc).2.1
      = acc.2.1 + ((ts.filter (fun t => t.type == "expense")).map Transaction.amount).sum := by
  induction ts with
  | nil => intro acc; simp
  | cons t rest ih =>
      intro acc
      rw [List.foldl_cons, ih]
      unfold summaryStep
      by_cases h1 : (t.type == "income") = true
      · rw [if_pos h1]
        have h2 : (t.type == "expense") = false := by
          cases he : t.type == "expense" with
          | false => rfl
          | true => simp_all
        simp [List.filter_cons, h2]
      · rw [if_neg h1]
        by_cases h2 : (t.type == "expense") = true
        · rw [if_pos h2]
          simp [List.filter_cons, h2]
          ring
        · rw [if_neg h2]
          simp [List.filter_cons, h2]

/-- Helper: how `bumpCategory` changes the dictionary lookups. -/
theorem lookupCategory_bump (l : List (Nat × ℚ)) (k k' : Nat) (v : ℚ) :
    lookupCategory (bumpCategory l k v) k'
      = if k' = k then some ((lookupCategory l k).getD 0 + v)
        else lookupCategory l k' := by
  induction l with
  | nil =>
      by_cases h : k' = k
      · subst h
        simp [bumpCategory, lookupCategory]
      · have h2 : ¬(k = k') := fun he => h he.symm
        simp [bumpCategory, lookupCategory, h, h2]
  | cons hd tl ih =>
      obtain ⟨k1, v1⟩ := hd
      by_cases h1 : k1 = k
      · subst h1
        by_cases h : k' = k1
        · subst h
          simp [bumpCategory, lookupCategory]
        · have h2 : ¬(k1 = k') := fun he => h he.symm
          simp [bumpCategory, lookupCategory, h, h2]
      · by_cases hb : k1 = k'
        · have h2 : ¬(k' = k) := fun he => h1 (hb.trans he)
          simp [bumpCategory, lookupCategory, h1, hb, h2]
        · by_cases h : k' = k
          · subst h
            simp [bumpCategory, lookupCategory, h1, hb, ih]
          · simp [bumpCategory, lookupCategory, h, h1, hb, ih]

/-- Helper: the third component accumulates per-bucket expense sums. -/
theorem summaryFold_cat (ts : List Transaction) : ∀ (acc : ℚ × ℚ × List (Nat × ℚ)) (k : Nat),
    lookupCategory ((ts.foldl summaryStep acc).2.2) k
      = (if ts.any (fun t => t.type == "expense" && (t.category_id.getD 0 == k))
         then some ((lookupCategory acc.2.2 k).getD 0
            + ((ts.filter (fun t => t.type == "expense" && (t.category_id.getD 0 == k))).map
                Transaction.amount).sum)
         else lookupCategory acc.2.2 k) := by
  induction ts with
  | nil => intro acc k; simp
  | cons t rest ih =>
      intro acc k
      rw [List.foldl_cons]
      by_cases h1 : (t.type == "income") = true
      · have h2 : (t.type == "expense") = false := by
          cases he : t.type == "expense" with
          | false => rfl
          | true => simp_all
        have hstep : summaryStep acc t = (acc.1 + t.amount, acc.2.1, acc.2.2) := by
          unfold summaryStep; rw [if_pos h1]
        rw [hstep, ih]
        simp [List.any_cons, List.filter_cons, h2]
      · by_cases h2 : (t.type == "expense") = true
        · have hstep : summaryStep acc t
              = (acc.1, acc.2.1 + t.amount,
                 bumpCategory acc.2.2 (t.category_id.getD 0) t.amount) := by
            unfold summaryStep; rw [if_neg h1, if_pos h2]
          rw [hstep, ih]
          by_cases hb : (t.category_id.getD 0 == k) = true
          · have hbk : k = t.category_id.getD 0 := by
              have h := hb
              simp only [beq_iff_eq] at h
              omega
            have hhead : (t.type == "expense" && (t.category_id.getD 0 == k)) = true := by
              simp [h2, hb]
            simp only [List.any_cons, List.filter_cons, hhead, Bool.true_or,
              List.map_cons, List.sum_cons, if_true]
            rw [lookupCategory_bump, if_pos hbk]
            by_cases hrest : (rest.any
                (fun x => x.type == "expense" && (x.category_id.getD 0 == k))) = true
            · rw [if_pos hrest]
              simp only [Option.getD_some, ← hbk]
              congr 1
              ring
            · rw [if_neg hrest]
              have hfil : rest.filter
                  (fun x => x.type == "expense" && (x.category_id.getD 0 == k)) = [] := by
                rw [List.filter_eq_nil_iff]
                intro x hx hpx
                exact hrest (List.any_eq_true.mpr ⟨x, hx, hpx⟩)
              simp [hfil, ← hbk]
          · have hhead : (t.type == "expense" && (t.category_id.getD 0 == k)) = false := by
              simp [hb]
            have hkn : ¬(k = t.category_id.getD 0) := by
              intro he
              subst he
              simp at hb
            simp only [List.any_cons, List.filter_cons, hhead, Bool.false_or]
            rw [lookupCategory_bump, if_neg hkn]
            simp
        · have hstep : summaryStep acc t = acc := by
            unfold summaryStep; rw [if_neg h1, if_neg h2]
          have hhead : (t.type == "expense" && (t.category_id.getD 0 == k)) = false := by
            simp [h2]
          rw [hstep, ih]
          simp [List.any_cons, List.filter_cons, hhead]

/-- Helper: `summarize` satisfies the per-month summary contract. -/
theorem summarize_matches (ts : List Transaction) : summaryMatches (summarize ts) ts := by
  unfold summaryMatches summarize
  refine ⟨summaryFold_income ts (0, 0, []) |>.trans (by ring_nf),
          summaryFold_expense ts (0, 0, []) |>.trans (by ring_nf), rfl, ?_⟩
  intro k
  rw [summaryFold_cat ts (0, 0, []) k]
  by_cases h : (ts.any (fun t => t.type == "expense" && (t.category_id.getD 0 == k))) = true
  · rw [if_pos h, if_pos h]
    simp [lookupCategory]
  · rw [if_neg h, if_neg h]
    simp [lookupCategory]

/-- Helper: `find?` on an interval of naturals whose predicate picks out one
point returns that point. -/
theorem find?_range'_eq (p : Nat → Bool) (t0 : Nat)
    (hp : ∀ t, p t = true ↔ t = t0) :
    ∀ (s n : Nat), s ≤ t0 → t0 < s + n → (List.range' s n).find? p = some t0 := by
  intro s n
  induction n generalizing s with
  | zero => intro h1 h2; omega
  | succ n ih =>
      intro h1 h2
      rw [List.range'_succ]
      by_cases he : s = t0
      · subst he
        simp [List.find?, (hp s).mpr rfl]
      · have hps : p s = false := by
          cases hx : p s with
          | false => rfl
          | true => exact absurd ((hp s).mp hx) he
        simp only [List.find?, hps]
        exact ih (s + 1) (by omega) (by omega)

/-- C8: for every start/end month pair and both bases, the period summary
has an entry for every calendar month of the inclusive range (empty months
included as zero-valued summaries), and each month's summary satisfies the
income/expense/net/bucket equations over that month's transaction list. -/
theorem period_summary_correct :
    ∀ (store : List Transaction) (startM endM : Date) (catF : Option (List Nat)) (y m : Nat),
      1 ≤ m → m ≤ 12 →
      monthIdx startM.year startM.month ≤ monthIdx y m →
      monthIdx y m ≤ monthIdx endM.year endM.month →
      lookupMonth (getPeriodSummary store startM endM catF) (y, m)
          = some (summarize (getTransactionsByMonth store y m none true catF),
                  summarize (getAccruedTransactionsByMonth store y m none catF))
        ∧ summaryMatches (summarize (getTransactionsByMonth store y m none true catF))
            (getTransactionsByMonth store y m none true catF)
        ∧ summaryMatches (summarize (getAccruedTransactionsByMonth store y m none catF))
            (getAccruedTransactionsByMonth store y m none catF) := by
  intro store startM endM catF y m hm1 hm2 hlo hhi
  refine ⟨?_, summarize_matches _, summarize_matches _⟩
  have h1 : monthIdx y m / 12 = y := by unfold monthIdx; omega
  have h2 : monthIdx y m % 12 + 1 = m := by unfold monthIdx; omega
  unfold getPeriodSummary getPeriodTransactions monthsBetween lookupMonth
  rw [List.map_map, List.map_map]
  show Option.map (fun p => p.2)
      (((List.range' (monthIdx startM.year startM.month)
          (monthIdx endM.year endM.month + 1 - monthIdx startM.year startM.month)).map
        (fun t => (((t / 12, t % 12 + 1) : Nat × Nat),
          summarize (getTransactionsByMonth store (t / 12) (t % 12 + 1) none true catF),
          summarize (getAccruedTransactionsByMonth store (t / 12) (t % 12 + 1) none catF)))).find?
        (fun p => p.1 == (y, m)))
      = _
  rw [List.find?_map]
  have hf : (List.range' (monthIdx startM.year startM.month)
      (monthIdx endM.year endM.month + 1 - monthIdx startM.year startM.month)).find?
        ((fun (p : (Nat × Nat) × MonthSummary × MonthSummary) => p.1 == (y, m)) ∘
          (fun t => (((t / 12, t % 12 + 1) : Nat × Nat),
            summarize (getTransactionsByMonth store (t / 12) (t % 12 + 1) none true catF),
            summarize (getAccruedTransactionsByMonth store (t / 12) (t % 12 + 1) none catF))))
      = some (monthIdx y m) := by
    refine find?_range'_eq _ (monthIdx y m) ?_ _ _ hlo (by omega)
    intro t
    show (((t / 12, t % 12 + 1) : Nat × Nat) == (y, m)) = true ↔ t = monthIdx y m
    constructor
    · intro ht
      have hee : ((t / 12, t % 12 + 1) : Nat × Nat) = (y, m) := by simpa using ht
      have he1 : t / 12 = y := congrArg Prod.fst hee
      have he2 : t % 12 + 1 = m := congrArg Prod.snd hee
      unfold monthIdx
      omega
    · intro ht
      subst ht
      simp [h1, h2]
  rw [hf]
  show some (summarize (getTransactionsByMonth store (monthIdx y m / 12)
        (monthIdx y m % 12 + 1) none true catF),
      summarize (getAccruedTransactionsByMonth store (monthIdx y m / 12)
        (monthIdx y m % 12 + 1) none catF)) = _
  rw [h1, h2]

/-- A January income transaction for the C8 witness. -/
def c8Tx : Transaction :=
  { id := "c8", account_id := 1, transaction_date := ⟨2024, 1, 7⟩, amount := 3,
    type := "income" }

/-- C8 witness: the summary theorem applied over a two-month range at the
empty month 2024/02 (the month is present even with no activity). -/
theorem period_summary_correct_witness :
    lookupMonth (getPeriodSummary [c8Tx] ⟨2024, 1, 5⟩ ⟨2024, 2, 20⟩ none) (2024, 2)
        = some (summarize (getTransactionsByMonth [c8Tx] 2024 2 none true none),
                summarize (getAccruedTransactionsByMonth [c8Tx] 2024 2 none none))
    ∧ summaryMatches (summarize (getTransactionsByMonth [c8Tx] 2024 2 none true none))
        (getTransactionsByMonth [c8Tx] 2024 2 none true none)
    ∧ summaryMatches (summarize (getAccruedTransactionsByMonth [c8Tx] 2024 2 none none))
        (getAccruedTransactionsByMonth [c8Tx] 2024 2 none none) :=
  period_summary_correct [c8Tx] ⟨2024, 1, 5⟩ ⟨2024, 2, 20⟩ none 2024 2
    (by norm_num) (by norm_num) (by decide) (by decide)

/-! ## Claim C9 - adapter row-level tolerance and header strictness -/

/-- Helper: the empty string is empty. -/
theorem isEmpty_nilString : ("" : String).isEmpty = true := rfl

/-- Helper: a row with a missing (empty after strip) date or amount field
makes the Chase row converter raise, i.e. return `none`. -/
theorem chase_rowToTransaction_none_of_missing (r : List String) (aid : Nat)
    (h : pyStrip (r.getD 0 "") = "" ∨ pyStrip (r.getD 5 "") = "") :
    Chase.rowToTransaction r aid = none := by
  simp only [Chase.rowToTransaction]
  split
  · rfl
  · split
    · rfl
    · rename_i hcond
      exact absurd (by rcases h with h | h <;> rw [h] <;> simp [isEmpty_nilString]) hcond

/-- Helper: skipping one malformed row leaves the Chase row loop's output on
the other rows unchanged. -/
theorem chase_processRows_skip (aid : Nat) (r : List String)
    (hskip : r.isEmpty = true ∨ r.length < 6 ∨ Chase.rowToTransaction r aid = none) :
    ∀ (pre post : List (List String)),
      Chase.processRows aid (pre ++ r :: post) = Chase.processRows aid (pre ++ post) := by
  intro pre
  induction pre with
  | nil =>
      intro post
      show (if (r.isEmpty || decide (r.length < 6)) = true
            then Chase.processRows aid post
            else match Chase.rowToTransaction r aid with
              | some t => t :: Chase.processRows aid post
              | none => Chase.processRows aid post)
          = Chase.processRows aid post
      by_cases hc : (r.isEmpty || decide (r.length < 6)) = true
      · rw [if_pos hc]
      · rw [if_neg hc]
        rcases hskip with h | h | h
        · exact absurd (by simp [h]) hc
        · exact absurd (by simp [h]) hc
        · rw [h]
  | cons p pre' ih =>
      intro post
      show Chase.processRows aid (p :: (pre' ++ r :: post))
          = Chase.processRows aid (p :: (pre' ++ post))
      unfold Chase.processRows
      rw [ih post]

/-- Helper: AMEX analogue of the missing-field row rejection. -/
theorem amex_rowToTransaction_none_of_missing (r : List String) (aid : Nat)
    (h : pyStrip (r.getD 0 "") = "" ∨ pyStrip (r.getD 2 "") = "") :
    Amex.rowToTransaction r aid = none := by
  simp only [Amex.rowToTransaction]
  split
  · rfl
  · split
    · rfl
    · rename_i hcond
      exact absurd (by rcases h with h | h <;> rw [h] <;> simp [isEmpty_nilString]) hcond

/-- Helper: AMEX analogue of the malformed-row skip invariance. -/
theorem amex_processRows_skip (aid : Nat) (r : List String)
    (hskip : r.isEmpty = true ∨ r.length < 3 ∨ Amex.rowToTransaction r aid = none) :
    ∀ (pre post : List (List String)),
      Amex.processRows aid (pre ++ r :: post) = Amex.processRows aid (pre ++ post) := by
  intro pre
  induction pre with
  | nil =>
      intro post
      show (if (r.isEmpty || decide (r.length < 3)) = true
            then Amex.processRows aid post
            else match Amex.rowToTransaction r aid with
              | some t => t :: Amex.processRows aid post
              | none => Amex.processRows aid post)
          = Amex.processRows aid post
      by_cases hc : (r.isEmpty || decide (r.length < 3)) = true
      · rw [if_pos hc]
      · rw [if_neg hc]
        rcases hskip with h | h | h
        · exact absurd (by simp [h]) hc
        · exact absurd (by simp [h]) hc
        · rw [h]
  | cons p pre' ih =>
      intro post
      show Amex.processRows aid (p :: (pre' ++ r :: post))
          = Amex.processRows aid (p :: (pre' ++ post))
      unfold Amex.processRows
      rw [ih post]

/-- C9: a header line that is not the adapter's exact expected column list
aborts the whole ingestion with an error and no partial result; with a valid
header the ingestion succeeds, and a data row that is too short or has a
missing date or amount field is skipped while every other row still produces
its record (removing the malformed row does not change the output). -/
theorem adapter_row_error_handling :
    (∀ (header : List String) (rows : List (List String)) (aid : Nat),
        header ≠ Chase.csvHeaders → ∃ e, Chase.ingest (header :: rows) aid = .error e)
    ∧ (∀ (rows : List (List String)) (aid : Nat),
        ∃ l, Chase.ingest (Chase.csvHeaders :: rows) aid = .ok l)
    ∧ (∀ (pre post : List (List String)) (r : List String) (aid : Nat),
        (r.length < 6 ∨ pyStrip (r.getD 0 "") = "" ∨ pyStrip (r.getD 5 "") = "") →
        Chase.ingest (Chase.csvHeaders :: (pre ++ r :: post)) aid
          = Chase.ingest (Chase.csvHeaders :: (pre ++ post)) aid)
    ∧ (∀ (header : List String) (rows : List (List String)) (aid : Nat),
        header ≠ Amex.csvHeaders → ∃ e, Amex.ingest (header :: rows) aid = .error e)
    ∧ (∀ (rows : List (List String)) (aid : Nat),
        ∃ l, Amex.ingest (Amex.csvHeaders :: rows) aid = .ok l)
    ∧ (∀ (pre post : List (List String)) (r : List String) (aid : Nat),
        (r.length < 3 ∨ pyStrip (r.getD 0 "") = "" ∨ pyStrip (r.getD 2 "") = "") →
        Amex.ingest (Amex.csvHeaders :: (pre ++ r :: post)) aid
          = Amex.ingest (Amex.csvHeaders :: (pre ++ post)) aid) := by
  refine ⟨?_, ?_, ?_, ?_, ?_, ?_⟩
  · intro header rows aid hne
    refine ⟨"CSV headers do not match expected format", ?_⟩
    simp only [Chase.ingest]
    rw [if_pos hne]
  · intro rows aid
    refine ⟨Chase.processRows aid rows, ?_⟩
    simp only [Chase.ingest]
    rw [if_neg (by simp)]
  · intro pre post r aid h
    simp only [Chase.ingest]
    rw [if_neg (by simp), if_neg (by simp)]
    have hskip : r.isEmpty = true ∨ r.length < 6 ∨ Chase.rowToTransaction r aid = none := by
      rcases h with h | h
      · exact Or.inr (Or.inl h)
      · exact Or.inr (Or.inr (chase_rowToTransaction_none_of_missing r aid h))
    rw [chase_processRows_skip aid r hskip pre post]
  · intro header rows aid hne
    refine ⟨"CSV headers do not match expected format", ?_⟩
    simp only [Amex.ingest]
    rw [if_pos hne]
  · intro rows aid
    refine ⟨Amex.processRows aid rows, ?_⟩
    simp only [Amex.ingest]
    rw [if_neg (by simp)]
  · intro pre post r aid h
    simp only [Amex.ingest]
    rw [if_neg (by simp), if_neg (by simp)]
    have hskip : r.isEmpty = true ∨ r.length < 3 ∨ Amex.rowToTransaction r aid = none := by
      rcases h with h | h
      · exact Or.inr (Or.inl h)
      · exact Or.inr (Or.inr (amex_rowToTransaction_none_of_missing r aid h))
    rw [amex_processRows_skip aid r hskip pre post]

/-- A Chase data row with an empty amount field, for the C9 witness. -/
def c9BadRow : List String := ["01/15/2024", "01/16/2024", "STORE", "Food", "Sale", "", ""]

/-- A well-formed Chase data row surviving next to the malformed one. -/
def c9GoodRow : List String := ["01/20/2024", "01/21/2024", "SHOP", "", "Sale", "-7.50", ""]

/-- C9 witness: the theorem applied at a wrong header, a valid header, and a
concrete batch where the malformed row is skipped without affecting the rest. -/
theorem adapter_row_error_handling_witness :
    (∃ e, Chase.ingest ([["Bad", "Header"]] : List (List String)) 1 = .error e)
    ∧ (∃ l, Chase.ingest [Chase.csvHeaders, c9GoodRow] 1 = .ok l)
    ∧ Chase.ingest [Chase.csvHeaders, c9GoodRow, c9BadRow] 1
        = Chase.ingest [Chase.csvHeaders, c9GoodRow] 1
    ∧ (∃ e, Amex.ingest ([["Bad"]] : List (List String)) 1 = .error e) := by
  refine ⟨adapter_row_error_handling.1 ["Bad", "Header"] [] 1 (by decide),
    adapter_row_error_handling.2.1 [c9GoodRow] 1, ?_,
    adapter_row_error_handling.2.2.2.1 ["Bad"] [] 1 (by decide)⟩
  exact adapter_row_error_handling.2.2.1 [c9GoodRow] [] c9BadRow 1
    (Or.inr (Or.inr (by decide)))

/-! ## Claim C10 - batch_update field validation -/

/-- A stored transaction for the C10 counterexample. -/
def c10Tx : Transaction := { id := "c10", account_id := 1, transaction_date := ⟨2024, 1, 1⟩ }

/-- C10 (counterexample): a call with an empty - or even invalid -
`field_names` list does NOT raise when the transactions list is empty:
`batch_update` returns 0 before any validation. -/
theorem batch_update_empty_skips_validation :
    batchUpdate [c10Tx] [] [] = .ok (0, [c10Tx])
    ∧ batchUpdate [c10Tx] [] ["merchant_name"] = .ok (0, [c10Tx]) := ⟨rfl, rfl⟩

/-- Every field the update operations can never change. -/
def sameOutsideUpdatable (a b : Transaction) : Prop :=
  b.id = a.id ∧ b.account_id = a.account_id ∧ b.transaction_date = a.transaction_date
  ∧ b.post_date = a.post_date ∧ b.description = a.description
  ∧ b.bank_category = a.bank_category ∧ b.amount = a.amount ∧ b.type = a.type
  ∧ b.additional_metadata = a.additional_metadata ∧ b.data_import_id = a.data_import_id
  ∧ b.merchant_name = a.merchant_name ∧ b.auto_merchant_name = a.auto_merchant_name
  ∧ b.accrued = a.accrued

/-- Helper: the relation is reflexive. -/
theorem sameOutsideUpdatable_refl (a : Transaction) : sameOutsideUpdatable a a :=
  ⟨rfl, rfl, rfl, rfl, rfl, rfl, rfl, rfl, rfl, rfl, rfl, rfl, rfl⟩

/-- Helper: the relation is transitive. -/
theorem sameOutsideUpdatable_trans (a b c : Transaction)
    (h1 : sameOutsideUpdatable a b) (h2 : sameOutsideUpdatable b c) :
    sameOutsideUpdatable a c := by
  unfold sameOutsideUpdatable at h1 h2 ⊢
  obtain ⟨e1, e2, e3, e4, e5, e6, e7, e8, e9, e10, e11, e12, e13⟩ := h1
  obtain ⟨f1, f2, f3, f4, f5, f6, f7, f8, f9, f10, f11, f12, f13⟩ := h2
  exact ⟨f1.trans e1, f2.trans e2, f3.trans e3, f4.trans e4, f5.trans e5,
    f6.trans e6, f7.trans e7, f8.trans e8, f9.trans e9, f10.trans e10,
    f11.trans e11, f12.trans e12, f13.trans e13⟩

/-- Helper: one column copy touches only its own (updatable) column. -/
theorem applyUpdateField_sameOutside (f : String) (src dst : Transaction) :
    sameOutsideUpdatable dst (applyUpdateField f src dst) := by
  unfold applyUpdateField
  split_ifs <;>
    exact ⟨rfl, rfl, rfl, rfl, rfl, rfl, rfl, rfl, rfl, rfl, rfl, rfl, rfl⟩

/-- Helper: folding any field list over a row keeps the other columns. -/
theorem foldFields_sameOutside (fields : List String) (src : Transaction) :
    ∀ dst, sameOutsideUpdatable dst
      (fields.foldl (fun d f => applyUpdateField f src d) dst) := by
  induction fields with
  | nil => intro dst; exact sameOutsideUpdatable_refl dst
  | cons f fs ih =>
      intro dst
      rw [List.foldl_cons]
      exact sameOutsideUpdatable_trans dst (applyUpdateField f src dst) _
        (applyUpdateField_sameOutside f src dst) (ih (applyUpdateField f src dst))

/-- Helper: `Forall₂` lifting of a pointwise map relation. -/
theorem forall2_map_self {R : Transaction → Transaction → Prop}
    (g : Transaction → Transaction) (l : List Transaction)
    (h : ∀ x ∈ l, R x (g x)) : List.Forall₂ R l (l.map g) := by
  induction l with
  | nil => exact List.Forall₂.nil
  | cons x xs ih =>
      exact List.Forall₂.cons (h x (List.mem_cons_self x xs))
        (ih (fun y hy => h y (List.mem_cons_of_mem x hy)))

/-- Helper: reflexivity of `Forall₂` for the column relation. -/
theorem forall2_sameOutside_refl : ∀ (l : List Transaction),
    List.Forall₂ sameOutsideUpdatable l l := by
  intro l
  induction l with
  | nil => exact List.Forall₂.nil
  | cons x xs ih => exact List.Forall₂.cons (sameOutsideUpdatable_refl x) ih

/-- Helper: transitivity of `Forall₂` for the column relation. -/
theorem forall2_sameOutside_trans :
    ∀ {l1 l2 l3 : List Transaction},
      List.Forall₂ sameOutsideUpdatable l1 l2 → List.Forall₂ sameOutsideUpdatable l2 l3 →
      List.Forall₂ sameOutsideUpdatable l1 l3 := by
  intro l1 l2 l3 h12
  induction h12 generalizing l3 with
  | nil => intro h; exact h
  | cons hab hrest ih =>
      intro h23
      cases h23 with
      | cons hbc hrest2 =>
          exact List.Forall₂.cons (sameOutsideUpdatable_trans _ _ _ hab hbc) (ih hrest2)

/-- Helper: one UPDATE statement keeps every non-updatable column. -/
theorem updateOne_sameOutside (store : List Transaction) (fields : List String)
    (src : Transaction) :
    List.Forall₂ sameOutsideUpdatable store (updateOne store fields src).2 := by
  refine forall2_map_self _ store ?_
  intro x _
  by_cases hb : (x.id == src.id) = true
  · rw [if_pos hb]
    exact foldFields_sameOutside fields src x
  · rw [if_neg hb]
    exact sameOutsideUpdatable_refl x

/-- Helper: the whole UPDATE loop keeps every non-updatable column. -/
theorem runBatchUpdate_sameOutside (fields : List String) :
    ∀ (ts store : List Transaction),
      List.Forall₂ sameOutsideUpdatable store (runBatchUpdate fields store ts).2 := by
  intro ts
  induction ts with
  | nil => intro store; exact forall2_sameOutside_refl store
  | cons src rest ih =>
      intro store
      show List.Forall₂ sameOutsideUpdatable store
        (runBatchUpdate fields (updateOne store fields src).2 rest).2
      exact forall2_sameOutside_trans (updateOne_sameOutside store fields src)
        (ih (updateOne store fields src).2)

/-- C10 (amended): with a non-empty transactions list, `batch_update` (and
`update`, which always passes a singleton list) raises `ValueError` on an
empty or unsupported `field_names` list before any mutation (the error path
returns no table at all); with an empty transactions list it returns 0
without validating and without touching the store; and a successful call
never changes any column outside
`{category_id, auto_category_id, amortize_months, amortize_end_date}`. -/
theorem batch_update_field_validation :
    (∀ (store ts : List Transaction), ts ≠ [] →
        batchUpdate store ts [] = .error "field_names cannot be empty")
    ∧ (∀ (store ts : List Transaction) (fields : List String) (f : String),
        ts ≠ [] → f ∈ fields → f ∉ supportedUpdateFields →
        batchUpdate store ts fields = .error "Unsupported field names")
    ∧ (∀ (store : List Transaction) (t : Transaction),
        updateTx store t [] = .error "field_names cannot be empty")
    ∧ (∀ (store : List Transaction) (t : Transaction) (fields : List String) (f : String),
        f ∈ fields → f ∉ supportedUpdateFields →
        updateTx store t fields = .error "Unsupported field names")
    ∧ (∀ (store ts : List Transaction) (fields : List String) (n : Nat)
        (st : List Transaction),
        batchUpdate store ts fields = .ok (n, st) →
        List.Forall₂ sameOutsideUpdatable store st) := by
  have hempty : ∀ (store ts : List Transaction), ts ≠ [] →
      batchUpdate store ts [] = .error "field_names cannot be empty" := by
    intro store ts h
    unfold batchUpdate
    rw [if_neg (by simp [h])]
    simp
  have hinvalid : ∀ (store ts : List Transaction) (fields : List String) (f : String),
      ts ≠ [] → f ∈ fields → f ∉ supportedUpdateFields →
      batchUpdate store ts fields = .error "Unsupported field names" := by
    intro store ts fields f h hf hns
    unfold batchUpdate
    rw [if_neg (by simp [h])]
    have hfne : fields ≠ [] := by
      intro he
      subst he
      exact absurd hf (List.not_mem_nil f)
    rw [if_neg (by simp [hfne])]
    rw [if_pos (List.any_eq_true.mpr ⟨f, hf, by simpa using hns⟩)]
  refine ⟨hempty, hinvalid, ?_, ?_, ?_⟩
  · intro store t
    unfold updateTx
    rw [hempty store [t] (by simp)]
    rfl
  · intro store t fields f hf hns
    unfold updateTx
    rw [hinvalid store [t] fields f (by simp) hf hns]
    rfl
  · intro store ts fields n st h
    unfold batchUpdate at h
    by_cases h1 : ts.isEmpty = true
    · rw [if_pos h1] at h
      injection h with h
      injection h with _ h2
      subst h2
      exact forall2_sameOutside_refl store
    · rw [if_neg h1] at h
      by_cases h2 : fields.isEmpty = true
      · rw [if_pos h2] at h
        exact absurd h (by simp)
      · rw [if_neg h2] at h
        by_cases h3 : (fields.any fun f => !supportedUpdateFields.contains f) = true
        · rw [if_pos h3] at h
          exact absurd h (by simp)
        · rw [if_neg h3] at h
          injection h with h
          have h4 : st = (runBatchUpdate fields store ts).2 := by rw [h]
          rw [h4]
          exact runBatchUpdate_sameOutside fields ts store

/-- C10 witness: the amended statement applied at concrete calls. -/
theorem batch_update_field_validation_witness :
    batchUpdate [c10Tx] [c10Tx] [] = .error "field_names cannot be empty"
    ∧ batchUpdate [c10Tx] [c10Tx] ["merchant_name"] = .error "Unsupported field names"
    ∧ updateTx [c10Tx] c10Tx ["bogus"] = .error "Unsupported field names"
    ∧ List.Forall₂ sameOutsideUpdatable [c10Tx] [{ c10Tx with category_id := some 5 }] := by
  refine ⟨batch_update_field_validation.1 [c10Tx] [c10Tx] (by simp),
    batch_update_field_validation.2.1 [c10Tx] [c10Tx] ["merchant_name"] "merchant_name"
      (by simp) (by simp) (by decide),
    batch_update_field_validation.2.2.2.1 [c10Tx] c10Tx ["bogus"] "bogus"
      (by simp) (by decide), ?_⟩
  exact batch_update_field_validation.2.2.2.2 [c10Tx]
    [{ c10Tx with category_id := some 5 }] ["category_id"] 1
    [{ c10Tx with category_id := some 5 }] rfl

/-! ## Claim C2 - re-import of the exported CSV -/

/-- A stored transaction awaiting a merchant-name update (C2 failing input). -/
def c2Tx : Transaction :=
  { id := "t1", account_id := 1, transaction_date := ⟨2024, 1, 15⟩, amount := 10 }

/-- A re-import CSV row whose only edit is a user-entered merchant name. -/
def c2Row : UpdateRow := { id := "t1", merchant_name := "Amazon" }

/-- A re-import row accepting an auto-suggested category (the part of the
re-import flow that does work). -/
def c2CatTx : Transaction :=
  { id := "t2", account_id := 1, transaction_date := ⟨2024, 2, 2⟩, amount := 4,
    auto_category_id := some 7 }

/-- The corresponding CSV row: empty user category, auto suggestion present. -/
def c2CatRow : UpdateRow := { id := "t2", auto_category_name := "Groceries" }

/-- C2 (code bug): a re-import row with a non-empty user-entered
`merchant_name` for an existing transaction makes `cmd_update_from_csv` call
`batch_update(..., ["merchant_name"])`, which `batch_update` rejects with
`ValueError` because `merchant_name` is not in its supported field set - the
command aborts and no merchant name is ever stored, although the CLI's own
help text and the repository's own tests
(`test_batch_update_merchant_names`) expect the update to be applied.  The
category half of the claim does work: an empty user category with a present
auto-suggestion is accepted and stored. -/
theorem update_from_csv_merchant_update_fails :
    cmdUpdateFromCsv [c2Tx] [] [c2Row] = (.error "Unsupported field names", [c2Tx])
    ∧ batchUpdate [c2Tx] [{ c2Tx with merchant_name := some "Amazon" }] ["merchant_name"]
        = .error "Unsupported field names"
    ∧ cmdUpdateFromCsv [c2CatTx] [] [c2CatRow]
        = (.ok (), [{ c2CatTx with category_id := some 7 }]) := ⟨rfl, rfl, rfl⟩

end Necker
